import Mathlib

/-!
Athenz SIA for EC2: identity evidence and service configuration.

A shallow embedding of `provider/aws/sia-ec2/authn.go` (namespace `Sia`) and of
parts of `libs/go/zmscli/import.go` and `libs/go/zmscli/group.go` (namespace
`Zmscli`), and theorems about them.

Go values are embedded as follows.
* A Go `error` is `Option String`: `none` is the nil error, `some msg` an error
  whose `Error()` text is `msg`.
* A Go pointer (`*options.Config`, `*options.ConfigAccount`, `*time.Time`) and a
  Go byte slice are `Option`s: `none` is nil.
* A function of a package that is outside this file (`options`, `meta`, `util`,
  the standard library) is a field of a structure the embedded function takes
  as its first argument.
* What a function writes with `log.Printf` and `log.Println` is returned as a
  list of lines (without the time stamp the logger puts in front).
* A Go panic is the `error` case of `Except Panic`.
* The ZMS server is a state the requests of the client take and give back, and
  the requests a command makes are returned in order with its result.
-/

namespace Sia

/-- Go `error`: `none` is nil, `some msg` is an error with text `msg`. -/
abbrev GoError := Option String

/-! ## Service configuration resolver (`GetEC2Config`) -/

/-- The three values `options.InitFileConfig` and `options.InitEnvConfig` return,
which are also the three values `GetEC2Config` returns. -/
structure ConfigResult (C A : Type) where
  config : Option C
  account : Option A
  err : GoError

/-- The two values `options.InitCredsConfig` and `options.InitProfileConfig` return. -/
structure AccountResult (A : Type) where
  account : Option A
  err : GoError

/-- The functions of package `options` that `GetEC2Config` calls. The types
`options.Config` and `options.ConfigAccount` are the parameters `C` and `A`. -/
structure Options (C A : Type) where
  InitFileConfig : String → String → Bool → String → String → ConfigResult C A
  InitEnvConfig : Option C → ConfigResult C A
  InitCredsConfig : String → Bool → String → AccountResult A
  InitProfileConfig : String → String → AccountResult A

/-- One call of a function of package `options`, with its arguments. -/
inductive Call (C : Type) where
  | InitFileConfig (fileName metaEndPoint : String) (useRegionalSTS : Bool)
      (region account : String)
  | InitEnvConfig (config : Option C)
  | InitCredsConfig (serviceSuffix : String) (useRegionalSTS : Bool) (region : String)
  | InitProfileConfig (metaEndPoint serviceSuffix : String)

/-- What one run of `GetEC2Config` does: the calls it makes, in order, the lines
it logs, in order, and the values it returns. -/
structure ConfigRun (C A : Type) where
  calls : List (Call C)
  log : List String
  result : ConfigResult C A

/-- Embedding of `GetEC2Config` (authn.go, lines 88 to 112). -/
def GetEC2Config {C A : Type} (o : Options C A) (configFile metaEndpoint : String)
    (useRegionalSTS : Bool) (region account : String) : ConfigRun C A :=
  let r1 := o.InitFileConfig configFile metaEndpoint useRegionalSTS region account
  let calls1 := [Call.InitFileConfig configFile metaEndpoint useRegionalSTS region account]
  match r1.err with
  | none => { calls := calls1, log := [], result := ⟨r1.config, r1.account, none⟩ }
  | some err1 =>
    let log1 :=
      ["Unable to process configuration file '" ++ configFile ++ "': " ++ err1,
       "Trying to determine service details from the environment variables..."]
    let r2 := o.InitEnvConfig r1.config
    let calls2 := calls1 ++ [Call.InitEnvConfig r1.config]
    match r2.err with
    | none => { calls := calls2, log := log1, result := ⟨r2.config, r2.account, none⟩ }
    | some err2 =>
      let log2 := log1 ++
        ["Unable to process environment settings: " ++ err2,
         "Trying to determine service name security credentials..."]
      let r3 := o.InitCredsConfig "-service" useRegionalSTS region
      let calls3 := calls2 ++ [Call.InitCredsConfig "-service" useRegionalSTS region]
      match r3.err with
      | none => { calls := calls3, log := log2, result := ⟨r2.config, r3.account, none⟩ }
      | some err3 =>
        let log3 := log2 ++
          ["Unable to process security credentials: " ++ err3,
           "Trying to determine service name from profile arn..."]
        let r4 := o.InitProfileConfig metaEndpoint "-service"
        let calls4 := calls3 ++ [Call.InitProfileConfig metaEndpoint "-service"]
        match r4.err with
        | none => { calls := calls4, log := log3, result := ⟨r2.config, r4.account, none⟩ }
        | some err4 =>
          { calls := calls4
            log := log3 ++ ["Unable to determine service name: " ++ err4]
            result := ⟨r2.config, none, some err4⟩ }

/-- A strategy's outcome as the cascade sees it: its account and its error. -/
def ConfigResult.outcome {C A : Type} (r : ConfigResult C A) : AccountResult A :=
  ⟨r.account, r.err⟩

/-- A strategy succeeds when it returns the nil error. -/
def AccountResult.succeeded {A : Type} (r : AccountResult A) : Bool :=
  r.err.isNone

/-- The outcomes of the four strategies in the order file, environment,
credentials, profile, each with the arguments `GetEC2Config` gives it. -/
def strategyOutcomes {C A : Type} (o : Options C A) (configFile metaEndpoint : String)
    (useRegionalSTS : Bool) (region account : String) : List (AccountResult A) :=
  let r1 := o.InitFileConfig configFile metaEndpoint useRegionalSTS region account
  [r1.outcome,
   (o.InitEnvConfig r1.config).outcome,
   o.InitCredsConfig "-service" useRegionalSTS region,
   o.InitProfileConfig metaEndpoint "-service"]

/-- The account the spec's cascade resolves: that of the first strategy that
succeeded, nil when none did. -/
def firstSuccessfulAccount {A : Type} (outcomes : List (AccountResult A)) : Option A :=
  match outcomes.find? AccountResult.succeeded with
  | some r => r.account
  | none => none

/-! ## Identity evidence fetcher (`getDocValue`, `GetEC2DocumentDetails`, `GetECSOnEC2TaskId`) -/

/-- Contents of a Go byte slice. -/
abbrev Bytes := List UInt8

/-- A Go panic, with the text the runtime prints. -/
structure Panic where
  msg : String
  deriving DecidableEq, Repr

/-- A JSON value, which is also the Go value `json.Unmarshal` stores for it in an
`interface{}`: nil for `null`, a `bool`, a `float64` (kept as the number's text),
a `string`, a `[]interface{}` or a `map[string]interface{}`. -/
inductive JSON where
  | null
  | bool (b : Bool)
  | number (text : String)
  | string (s : String)
  | array (elems : List JSON)
  | object (members : List (String × JSON))

/-- The name the Go runtime prints for the dynamic type of a decoded value. -/
def JSON.goType : JSON → String
  | .null => "nil"
  | .bool _ => "bool"
  | .number _ => "float64"
  | .string _ => "string"
  | .array _ => "[]interface \x7b\x7d"
  | .object _ => "map[string]interface \x7b\x7d"

/-- The name `encoding/json` prints for the kind of a JSON value in a type
error. -/
def JSON.kind : JSON → String
  | .null => "null"
  | .bool _ => "bool"
  | .number _ => "number"
  | .string _ => "string"
  | .array _ => "array"
  | .object _ => "object"

/-- Whether a JSON value is an object. -/
def JSON.isObject : JSON → Bool
  | .object _ => true
  | _ => false

/-- Whether a decoded value is nil or a string. -/
def JSON.isNilOrString : JSON → Bool
  | .null => true
  | .string _ => true
  | _ => false

/-- The text of a string value, and the empty string for any other value. -/
def JSON.text : JSON → String
  | .string s => s
  | _ => ""

/-- The value the members of a JSON object give a key: the decoder stores the
members in order into the map, so the last member with the key is the one kept. -/
def mapIndex : List (String × JSON) → String → Option JSON
  | [], _ => none
  | (k, v) :: rest, key =>
    match mapIndex rest key with
    | some w => some w
    | none => if k = key then some v else none

/-- Go `map[string]interface{}`: `none` is the nil map, `some members` the map
built from the members of a JSON object. -/
abbrev DocMap := Option (List (String × JSON))

/-- Go map index `docMap[key]`: the stored value, nil for a key that is not in
the map and for every key of the nil map. -/
def DocMap.index (docMap : DocMap) (key : String) : JSON :=
  match docMap with
  | none => JSON.null
  | some members =>
    match mapIndex members key with
    | some v => v
    | none => JSON.null

/-- Embedding of `getDocValue` (authn.go, lines 31 to 38). The type assertion
`value.(string)` panics when the value is not a string. -/
def getDocValue (docMap : DocMap) (key : String) : Except Panic String :=
  let value := docMap.index key
  match value with
  | JSON.null => .ok ""
  | JSON.string s => .ok s
  | v => .error ⟨"interface conversion: interface \x7b\x7d is " ++ v.goType ++ ", not string"⟩

/-- Go `time.Time`, as the seconds and nanoseconds elapsed since January 1 of
year 1, 00:00:00 UTC. -/
structure Time where
  sec : Int
  nsec : Nat
  deriving DecidableEq, Repr

/-- The zero value of `time.Time`. -/
def Time.zero : Time := ⟨0, 0⟩

/-- What the functions of this file read from outside: package `meta`, package
`util`, the process environment, the file system, and the parsers of the
standard library. -/
structure Host where
  /-- Go `meta.GetData(metaEndPoint, path)`. -/
  GetData : String → String → Option Bytes × GoError
  /-- The JSON value a byte slice is the text of, or the syntax error of
  `encoding/json`. -/
  jsonValue : Option Bytes → Except String JSON
  /-- The instant an RFC3339 text denotes, or the error of `time.Parse`. -/
  parseRFC3339 : String → Except String Time
  /-- Go `os.LookupEnv`: `none` for a variable that is not set. -/
  LookupEnv : String → Option String
  /-- Go `ioutil.ReadFile(name)`. -/
  ReadFile : String → Option Bytes × GoError
  /-- Go `util.ParseTaskArn(taskArn)`: three strings, the second being the task
  id, and an error. -/
  ParseTaskArn : String → String × String × String × GoError

/-- Go `os.Getenv`: the empty string for a variable that is not set. -/
def Host.Getenv (h : Host) (key : String) : String :=
  (h.LookupEnv key).getD ""

/-- Go `json.Unmarshal(data, &docMap)` for a nil `docMap` of type
`map[string]interface{}`: the map afterwards and the error. An object gives its
map, `null` leaves the map nil without error, any other value is a type error,
and text that is not JSON is a syntax error. -/
def Unmarshal (h : Host) (data : Option Bytes) : DocMap × GoError :=
  match h.jsonValue data with
  | .error e => (none, some e)
  | .ok (JSON.object members) => (some members, none)
  | .ok JSON.null => (none, none)
  | .ok v =>
    (none, some ("json: cannot unmarshal " ++ v.kind ++
      " into Go value of type map[string]interface \x7b\x7d"))

/-- Go `time.Parse(time.RFC3339, value)`: the parsed time and nil, or the zero
time and the error. -/
def timeParse (h : Host) (value : String) : Time × GoError :=
  match h.parseRFC3339 value with
  | .ok t => (t, none)
  | .error e => (Time.zero, some e)

/-- The seven values `GetEC2DocumentDetails` returns, in the order of its
signature: document, signature, account, instance id, region, pending time,
error. -/
abbrev DocumentDetails :=
  Option Bytes × Option Bytes × String × String × String × Option Time × GoError

/-- Embedding of `GetEC2DocumentDetails` (authn.go, lines 40 to 60). -/
def GetEC2DocumentDetails (h : Host) (metaEndPoint : String) : Except Panic DocumentDetails :=
  let fetch1 := h.GetData metaEndPoint "/latest/dynamic/instance-identity/document"
  let document := fetch1.1
  match fetch1.2 with
  | some err => .ok (none, none, "", "", "", none, some err)
  | none =>
    let fetch2 := h.GetData metaEndPoint "/latest/dynamic/instance-identity/pkcs7"
    let signature := fetch2.1
    match fetch2.2 with
    | some err => .ok (none, none, "", "", "", none, some err)
    | none =>
      let decoded := Unmarshal h document
      let docMap := decoded.1
      match decoded.2 with
      | some err => .ok (none, none, "", "", "", none, some err)
      | none => do
        let account ← getDocValue docMap "accountId"
        let region ← getDocValue docMap "region"
        let instanceId ← getDocValue docMap "instanceId"
        let pendingTime ← getDocValue docMap "pendingTime"
        let timeCheck := (timeParse h pendingTime).1
        return (document, signature, account, instanceId, region, some timeCheck, none)

/-- What one run of `GetECSOnEC2TaskId` does: the lines it logs and the string
it returns, or the panic that ends it. -/
structure TaskIdRun where
  log : List String
  outcome : Except Panic String

/-- Embedding of `GetECSOnEC2TaskId` (authn.go, lines 62 to 86). -/
def GetECSOnEC2TaskId (h : Host) : TaskIdRun :=
  let ecs := h.Getenv "ECS_CONTAINER_METADATA_FILE"
  if ecs = "" then
    ⟨["Not ECS on EC2 instance"], .ok ""⟩
  else
    let read := h.ReadFile ecs
    let ecsMetaData := read.1
    match read.2 with
    | some err =>
      ⟨["Unable to read ECS on EC2 instance metadata: " ++ ecs ++ " - " ++ err], .ok ""⟩
    | none =>
      let decoded := Unmarshal h ecsMetaData
      let docMap := decoded.1
      match decoded.2 with
      | some err =>
        ⟨["Unable to parse ECS on EC2 instance metadata: " ++ ecs ++ " - " ++ err], .ok ""⟩
      | none =>
        match getDocValue docMap "TaskARN" with
        | .error p => ⟨[], .error p⟩
        | .ok taskArn =>
          let parsed := h.ParseTaskArn taskArn
          let taskId := parsed.2.1
          match parsed.2.2.2 with
          | some err =>
            ⟨["Unable to parse ECS on EC2 task id: " ++ taskArn ++ " - " ++ err], .ok ""⟩
          | none => ⟨[], .ok taskId⟩

/-! ## Concrete strategy outcomes -/

/-- Strategies that all fail: the file strategy leaves a config behind, the
environment strategy hands its input config back. -/
def allFailOptions : Options String String where
  InitFileConfig := fun _ _ _ _ _ =>
    ⟨some "file-config", none, some "missing required Service field from the config file"⟩
  InitEnvConfig := fun config => ⟨config, none, some "missing environment settings"⟩
  InitCredsConfig := fun _ _ _ => ⟨none, some "unable to get caller identity"⟩
  InitProfileConfig := fun _ _ => ⟨none, some "unable to parse profile arn"⟩

/-- As `allFailOptions`, with other error texts for the first three strategies. -/
def allFailOptionsOtherErrors : Options String String where
  InitFileConfig := fun _ _ _ _ _ =>
    ⟨some "file-config", none, some "open sia_config: no such file or directory"⟩
  InitEnvConfig := fun config => ⟨config, none, some "no settings in the environment"⟩
  InitCredsConfig := fun _ _ _ => ⟨none, some "no security credentials"⟩
  InitProfileConfig := fun _ _ => ⟨none, some "unable to parse profile arn"⟩

/-- The file strategy fails and leaves a config behind, and the environment
strategy succeeds with a config of its own that records the one it was given. -/
def envSucceedsOptions : Options String String where
  InitFileConfig := fun _ _ _ _ _ =>
    ⟨some "file-config", none, some "missing required Service field from the config file"⟩
  InitEnvConfig := fun config => ⟨some ("env-config over " ++ config.getD "nil"),
    some "env-account", none⟩
  InitCredsConfig := fun _ _ _ => ⟨some "creds-account", none⟩
  InitProfileConfig := fun _ _ => ⟨some "profile-account", none⟩

/-- The file strategy returns the nil error and a nil account; every other
strategy would succeed with an account. -/
def emptyAccountOptions : Options String String where
  InitFileConfig := fun _ _ _ _ _ => ⟨some "file-config", none, none⟩
  InitEnvConfig := fun config => ⟨config, some "env-account", none⟩
  InitCredsConfig := fun _ _ _ => ⟨some "creds-account", none⟩
  InitProfileConfig := fun _ _ => ⟨some "profile-account", none⟩

/-- The four keys `GetEC2DocumentDetails` reads, in the order it reads them. -/
def documentKeys : List String :=
  ["accountId", "region", "instanceId", "pendingTime"]

/-- Whether the members of an object do not have a key, or have it with the
value `null`. -/
def lacksKey (members : List (String × JSON)) (key : String) : Bool :=
  match mapIndex members key with
  | none => true
  | some JSON.null => true
  | some _ => false

/-! ## Concrete hosts -/

/-- The bytes of a text of ASCII characters. -/
def ascii (s : String) : Bytes :=
  s.toList.map fun c => c.toNat.toUInt8

/-- A parser of RFC3339 texts that knows one instant, January 2 of 2024,
03:04:05 UTC, and rejects every other text. -/
def sampleRFC3339 (value : String) : Except String Time :=
  if value = "2024-01-02T03:04:05Z" then .ok ⟨63839761445, 0⟩
  else .error ("parsing time \"" ++ value ++ "\" as \"2006-01-02T15:04:05Z07:00\"")

/-- A task ARN parser that knows one ARN and rejects every other text. -/
def sampleParseTaskArn (taskArn : String) : String × String × String × GoError :=
  if taskArn = "arn:aws:ecs:us-west-2:1234:task/my-cluster/abcd1234" then
    ("task", "abcd1234", "my-cluster", none)
  else ("", "", "", some ("unable to parse task arn: " ++ taskArn))

/-- A host whose metadata endpoint answers the document path with `document`
and the signature path with `signature`, and on which the document's bytes are
the text of `value`. It runs no container. -/
def evidenceHost (document signature : Option Bytes × GoError)
    (value : Except String JSON) : Host where
  GetData := fun _ path =>
    if path = "/latest/dynamic/instance-identity/document" then document
    else if path = "/latest/dynamic/instance-identity/pkcs7" then signature
    else (none, some "404 Not Found")
  jsonValue := fun data =>
    if data = document.1 then value else .error "unexpected end of JSON input"
  parseRFC3339 := sampleRFC3339
  LookupEnv := fun _ => none
  ReadFile := fun name => (none, some ("open " ++ name ++ ": no such file or directory"))
  ParseTaskArn := sampleParseTaskArn

/-- A host on which `ECS_CONTAINER_METADATA_FILE` is `metadataFile`, reading the
file it names gives `read`, and the bytes read are the text of `value`. Its
metadata endpoint does not answer. -/
def taskHost (metadataFile : Option String) (read : Option Bytes × GoError)
    (value : Except String JSON) : Host where
  GetData := fun _ _ => (none, some "connection refused")
  jsonValue := fun data =>
    if data = read.1 then value else .error "unexpected end of JSON input"
  parseRFC3339 := sampleRFC3339
  LookupEnv := fun key => if key = "ECS_CONTAINER_METADATA_FILE" then metadataFile else none
  ReadFile := fun name =>
    if some name = metadataFile then read
    else (none, some ("open " ++ name ++ ": no such file or directory"))
  ParseTaskArn := sampleParseTaskArn

/-- An identity document with the four keys. -/
def fullDocument : Bytes :=
  ascii ("\x7b\"accountId\":\"123456789012\",\"region\":\"us-west-2\"," ++
    "\"instanceId\":\"i-0abc1234\",\"pendingTime\":\"2024-01-02T03:04:05Z\"\x7d")

/-- The members of `fullDocument`. -/
def fullMembers : List (String × JSON) :=
  [("accountId", JSON.string "123456789012"), ("region", JSON.string "us-west-2"),
   ("instanceId", JSON.string "i-0abc1234"),
   ("pendingTime", JSON.string "2024-01-02T03:04:05Z")]

/-- An identity document without `region`. -/
def noRegionDocument : Bytes :=
  ascii ("\x7b\"accountId\":\"123456789012\"," ++
    "\"instanceId\":\"i-0abc1234\",\"pendingTime\":\"2024-01-02T03:04:05Z\"\x7d")

/-- The members of `noRegionDocument`. -/
def noRegionMembers : List (String × JSON) :=
  [("accountId", JSON.string "123456789012"), ("instanceId", JSON.string "i-0abc1234"),
   ("pendingTime", JSON.string "2024-01-02T03:04:05Z")]

/-- An identity document without `pendingTime`. -/
def noPendingTimeDocument : Bytes :=
  ascii ("\x7b\"accountId\":\"123456789012\",\"region\":\"us-west-2\"," ++
    "\"instanceId\":\"i-0abc1234\"\x7d")

/-- The members of `noPendingTimeDocument`. -/
def noPendingTimeMembers : List (String × JSON) :=
  [("accountId", JSON.string "123456789012"), ("region", JSON.string "us-west-2"),
   ("instanceId", JSON.string "i-0abc1234")]

/-- An identity document whose `pendingTime` is not an RFC3339 text and whose
`instanceId` is a number. -/
def numericInstanceDocument : Bytes :=
  ascii "\x7b\"instanceId\":7,\"pendingTime\":\"yesterday\"\x7d"

/-- The members of `numericInstanceDocument`. -/
def numericInstanceMembers : List (String × JSON) :=
  [("instanceId", JSON.number "7"), ("pendingTime", JSON.string "yesterday")]

/-- A PKCS7 signature, shortened. -/
def sampleSignature : Bytes :=
  ascii "MIAGCSqGSIb3DQEHAqCAMIACAQExCzAJBgUrDgMCGgUAMIAGCSqGSIb3DQEHAaCAJIAEggHc"

/-- The content of a container metadata file. -/
def taskFile : Bytes :=
  ascii ("\x7b\"Cluster\":\"my-cluster\"," ++
    "\"TaskARN\":\"arn:aws:ecs:us-west-2:1234:task/my-cluster/abcd1234\"\x7d")

/-- The members of `taskFile`. -/
def taskMembers : List (String × JSON) :=
  [("Cluster", JSON.string "my-cluster"),
   ("TaskARN", JSON.string "arn:aws:ecs:us-west-2:1234:task/my-cluster/abcd1234")]

/-! ## Task ARN parser and container hosts -/

/-- Go `strings.Split(text, sep)` for a separator of one character, on the
characters of the text: the pieces between the separators, one piece for a text
without separator. -/
def splitOn (sep : Char) : List Char → List (List Char)
  | [] => [[]]
  | c :: cs =>
    if c = sep then [] :: splitOn sep cs
    else
      match splitOn sep cs with
      | [] => [[c]]
      | piece :: pieces => (c :: piece) :: pieces

/-- Modelled from the spec: `util.ParseTaskArn`, which `GetECSOnEC2TaskId` calls
and whose source is not among the files embedded here. The spec has a task ARN
parsed into a structured identifier of three parts, resource type, task id and
cluster, has malformed ARNs rejected, and gives the task id `abcd1234` for
`arn:aws:ecs:us-west-2:1234:task/my-cluster/abcd1234`. A task ARN is taken to
be six fields separated by colons, the first being `arn` and the last being
resource type, cluster and task id separated by slashes, none of them empty;
the three strings returned are the resource type, the task id and the cluster. -/
def ParseTaskArn (taskArn : String) : String × String × String × GoError :=
  let malformed : String × String × String × GoError :=
    ("", "", "", some ("unable to parse task arn: " ++ taskArn))
  match splitOn ':' taskArn.toList with
  | [arn, _, _, _, _, resource] =>
    if arn = "arn".toList then
      match splitOn '/' resource with
      | [resourceType, cluster, taskId] =>
        if resourceType.isEmpty || cluster.isEmpty || taskId.isEmpty then malformed
        else (String.mk resourceType, String.mk taskId, String.mk cluster, none)
      | _ => malformed
    else malformed
  | _ => malformed

/-- The host `taskHost` with the parser modelled from the spec. -/
def specTaskHost (metadataFile : Option String) (read : Option Bytes × GoError)
    (value : Except String JSON) : Host :=
  { taskHost metadataFile read value with ParseTaskArn := ParseTaskArn }

/-- A container metadata file whose content is `null`. -/
def nullTaskFile : Bytes :=
  ascii "null"

/-- A container metadata file whose `TaskARN` is a number. -/
def numberTaskFile : Bytes :=
  ascii "\x7b\"TaskARN\":42\x7d"

/-- A container metadata file whose `TaskARN` is a boolean. -/
def boolTaskFile : Bytes :=
  ascii "\x7b\"TaskARN\":true\x7d"

/-- A container metadata file whose `TaskARN` is an array. -/
def arrayTaskFile : Bytes :=
  ascii "\x7b\"TaskARN\":[]\x7d"

/-- A container metadata file whose `TaskARN` is an object. -/
def objectTaskFile : Bytes :=
  ascii "\x7b\"TaskARN\":\x7b\x7d\x7d"

end Sia

namespace Zmscli

open Sia (GoError Panic)

/-! ## ZMS command line client: import errors (`import.go`) -/

/-- Whether the second list of characters occurs in the first as a run of
consecutive characters. -/
def containsChars : List Char → List Char → Bool
  | [], substr => substr.isEmpty
  | c :: cs, substr => substr.isPrefixOf (c :: cs) || containsChars cs substr

/-- Go `strings.Contains(s, substr)`. -/
def stringsContains (s substr : String) : Bool :=
  containsChars s.toList substr.toList

/-- What one call of `shouldReportError` does: the lines it prints and the
boolean it returns. -/
structure ReportRun where
  output : List String
  report : Bool

/-- Embedding of `shouldReportError` (import.go, lines 40 to 58). -/
def shouldReportError (commandSkipErrors clientSkipErrors : Bool) (err : GoError) : ReportRun :=
  match err with
  | none => ⟨[], false⟩
  | some text =>
    if !commandSkipErrors then ⟨[], true⟩
    else
      let output := ["*** " ++ text]
      if clientSkipErrors then ⟨output, false⟩
      else ⟨output, !stringsContains text "already exists"⟩

/-! ## ZMS command line client: groups (`group.go`) -/

/-- Go `zms.TagValueList`. -/
structure TagValueList where
  List : List String

/-- Go `map[zms.CompoundName]*zms.TagValueList`: a key is in the map when the
function gives `some` entry for it, and the entry is a pointer that may be nil. -/
abbrev TagMap := String → Option (Option TagValueList)

/-- The empty map. -/
def TagMap.empty : TagMap := fun _ => none

/-- Go map index `tags[key]`: the entry stored, nil for a key not in the map. -/
def TagMap.index (tags : TagMap) (key : String) : Option TagValueList :=
  match tags key with
  | some entry => entry
  | none => none

/-- Go map assignment `tags[key] = entry`. -/
def TagMap.set (tags : TagMap) (key : String) (entry : Option TagValueList) : TagMap :=
  fun k => if k = key then some entry else tags k

/-- The fields of `zms.Group` that `group.go` reads and writes in the functions
embedded here. -/
structure Group where
  Name : String
  SelfServe : Option Bool
  ReviewEnabled : Option Bool
  NotifyRoles : String
  UserAuthorityExpiration : String
  UserAuthorityFilter : String
  MemberExpiryDays : Option Int
  ServiceExpiryDays : Option Int
  Tags : Option TagMap

/-- The fields of `zms.GroupMeta` that `getGroupMetaObject` sets. -/
structure GroupMeta where
  SelfServe : Option Bool
  ReviewEnabled : Option Bool
  NotifyRoles : String
  UserAuthorityExpiration : String
  UserAuthorityFilter : String
  MemberExpiryDays : Option Int
  ServiceExpiryDays : Option Int
  Tags : Option TagMap

/-- Go `SuccessMessage`. -/
structure SuccessMessage where
  Status : Int
  Message : String

/-- What `cli.Zms.GetGroup` returns, and the server's state afterwards. -/
structure GetGroupResult (σ : Type) where
  group : Option Group
  err : GoError
  state : σ

/-- What `cli.Zms.PutGroup` and `cli.Zms.PutGroupMeta` return, and the server's
state afterwards. -/
structure PutResult (σ : Type) where
  err : GoError
  state : σ

/-- The receiver `cli Zms` over a server with states `σ`: the audit reference,
the three requests of the ZMS client used here, and `cli.dumpByFormat` for a
group (with the `auditLog` its converter prints with) and for a message. -/
structure Zms (σ : Type) where
  AuditRef : String
  GetGroup : σ → String → String → Option Bool → Option Bool → GetGroupResult σ
  PutGroup : σ → String → String → String → Group → PutResult σ
  PutGroupMeta : σ → String → String → String → GroupMeta → PutResult σ
  dumpByFormatGroup : Option Group → Bool → Option String × GoError
  dumpByFormatMessage : SuccessMessage → Option String × GoError

/-- One request to the server, or one `time.Sleep`, with its arguments. -/
inductive ZmsCall where
  | GetGroup (dn gn : String) (auditLog pending : Option Bool)
  | PutGroup (dn gn auditRef : String) (group : Group)
  | PutGroupMeta (dn gn auditRef : String) (groupMeta : GroupMeta)
  | Sleep (milliseconds : Nat)

/-- Whether a call is a `PutGroup` request. -/
def ZmsCall.isPutGroup : ZmsCall → Bool
  | .PutGroup _ _ _ _ => true
  | _ => false

/-- Whether a call is a `PutGroupMeta` request. -/
def ZmsCall.isPutGroupMeta : ZmsCall → Bool
  | .PutGroupMeta _ _ _ _ => true
  | _ => false

/-- What one run of a command does: the calls it makes, in order, the server's
state afterwards, and the output and error it returns or the panic that ends
it. -/
structure CliRun (σ : Type) where
  calls : List ZmsCall
  state : σ
  outcome : Except Panic (Option String × GoError)

/-- The panic of reading a field through a nil pointer. -/
def nilDereference : Panic :=
  ⟨"runtime error: invalid memory address or nil pointer dereference"⟩

/-- What one run of `ShowGroup` does: its calls, the server's state afterwards,
and the three values it returns. -/
structure ShowRun (σ : Type) where
  calls : List ZmsCall
  state : σ
  group : Option Group
  output : Option String
  err : GoError

/-- Embedding of `ShowGroup` (group.go, lines 48 to 76). -/
def ShowGroup {σ : Type} (cli : Zms σ) (s : σ) (dn gn : String) (auditLog pending : Bool) :
    ShowRun σ :=
  let log := if auditLog then some auditLog else none
  let pend := if pending then some pending else none
  let fetch := cli.GetGroup s dn gn log pend
  let calls := [ZmsCall.GetGroup dn gn log pend]
  match fetch.err with
  | some err => ⟨calls, fetch.state, none, none, some err⟩
  | none =>
    let dumped := cli.dumpByFormatGroup fetch.group auditLog
    ⟨calls, fetch.state, fetch.group, dumped.1, dumped.2⟩

/-- Embedding of `getGroupMetaObject` (group.go, lines 294 to 305). -/
def getGroupMetaObject (group : Option Group) : Except Panic GroupMeta :=
  match group with
  | none => .error nilDereference
  | some group =>
    .ok { SelfServe := group.SelfServe
          ReviewEnabled := group.ReviewEnabled
          NotifyRoles := group.NotifyRoles
          UserAuthorityExpiration := group.UserAuthorityExpiration
          UserAuthorityFilter := group.UserAuthorityFilter
          MemberExpiryDays := group.MemberExpiryDays
          ServiceExpiryDays := group.ServiceExpiryDays
          Tags := group.Tags }

/-- Embedding of `verifyTagExists` (group.go, lines 496 to 517). -/
def verifyTagExists (group : Option Group) (tagKey : String) (tagValues : List String) :
    Except Panic Bool :=
  match group with
  | none => .error nilDereference
  | some group =>
    match group.Tags with
    | none => .ok false
    | some tags =>
      match tags.index tagKey with
      | none => .ok false
      | some current =>
        let tagCurrentTagValues : String → Option Bool :=
          current.List.foldl (fun m value => fun k => if k = value then some true else m k)
            (fun _ => none)
        .ok (tagValues.all fun value => (tagCurrentTagValues value).isSome)

/-! ### Group meta setters -/

/-- Embedding of `SetGroupMemberExpiryDays` (group.go, lines 78 to 97). -/
def SetGroupMemberExpiryDays {σ : Type} (cli : Zms σ) (s : σ) (dn rn : String) (days : Int) :
    CliRun σ :=
  let fetch := cli.GetGroup s dn rn none none
  let calls1 := [ZmsCall.GetGroup dn rn none none]
  match fetch.err with
  | some err => ⟨calls1, fetch.state, .ok (none, some err)⟩
  | none =>
    match getGroupMetaObject fetch.group with
    | .error p => ⟨calls1, fetch.state, .error p⟩
    | .ok fetched =>
      let groupMeta := { fetched with MemberExpiryDays := some days }
      let put := cli.PutGroupMeta fetch.state dn rn cli.AuditRef groupMeta
      let calls2 := calls1 ++ [ZmsCall.PutGroupMeta dn rn cli.AuditRef groupMeta]
      match put.err with
      | some err => ⟨calls2, put.state, .ok (none, some err)⟩
      | none =>
        let text := "[domain " ++ dn ++ " group " ++ rn ++
          " member-expiry-days attribute successfully updated]\n"
        let message : SuccessMessage := ⟨200, text⟩
        ⟨calls2, put.state, .ok (cli.dumpByFormatMessage message)⟩

/-- Embedding of `SetGroupServiceExpiryDays` (group.go, lines 99 to 118). -/
def SetGroupServiceExpiryDays {σ : Type} (cli : Zms σ) (s : σ) (dn rn : String) (days : Int) :
    CliRun σ :=
  let fetch := cli.GetGroup s dn rn none none
  let calls1 := [ZmsCall.GetGroup dn rn none none]
  match fetch.err with
  | some err => ⟨calls1, fetch.state, .ok (none, some err)⟩
  | none =>
    match getGroupMetaObject fetch.group with
    | .error p => ⟨calls1, fetch.state, .error p⟩
    | .ok fetched =>
      let groupMeta := { fetched with ServiceExpiryDays := some days }
      let put := cli.PutGroupMeta fetch.state dn rn cli.AuditRef groupMeta
      let calls2 := calls1 ++ [ZmsCall.PutGroupMeta dn rn cli.AuditRef groupMeta]
      match put.err with
      | some err => ⟨calls2, put.state, .ok (none, some err)⟩
      | none =>
        let text := "[domain " ++ dn ++ " group " ++ rn ++
          " service-expiry-days attribute successfully updated]\n"
        let message : SuccessMessage := ⟨200, text⟩
        ⟨calls2, put.state, .ok (cli.dumpByFormatMessage message)⟩

/-- Embedding of `SetGroupReviewEnabled` (group.go, lines 307 to 326). -/
def SetGroupReviewEnabled {σ : Type} (cli : Zms σ) (s : σ) (dn gn : String) (reviewEnabled : Bool) :
    CliRun σ :=
  let fetch := cli.GetGroup s dn gn none none
  let calls1 := [ZmsCall.GetGroup dn gn none none]
  match fetch.err with
  | some err => ⟨calls1, fetch.state, .ok (none, some err)⟩
  | none =>
    match getGroupMetaObject fetch.group with
    | .error p => ⟨calls1, fetch.state, .error p⟩
    | .ok fetched =>
      let groupMeta := { fetched with ReviewEnabled := some reviewEnabled }
      let put := cli.PutGroupMeta fetch.state dn gn cli.AuditRef groupMeta
      let calls2 := calls1 ++ [ZmsCall.PutGroupMeta dn gn cli.AuditRef groupMeta]
      match put.err with
      | some err => ⟨calls2, put.state, .ok (none, some err)⟩
      | none =>
        let text := "[domain " ++ dn ++ " group " ++ gn ++
          " review-enabled attribute successfully updated]\n"
        let message : SuccessMessage := ⟨200, text⟩
        ⟨calls2, put.state, .ok (cli.dumpByFormatMessage message)⟩

/-- Embedding of `SetGroupSelfServe` (group.go, lines 328 to 347). -/
def SetGroupSelfServe {σ : Type} (cli : Zms σ) (s : σ) (dn gn : String) (selfServe : Bool) :
    CliRun σ :=
  let fetch := cli.GetGroup s dn gn none none
  let calls1 := [ZmsCall.GetGroup dn gn none none]
  match fetch.err with
  | some err => ⟨calls1, fetch.state, .ok (none, some err)⟩
  | none =>
    match getGroupMetaObject fetch.group with
    | .error p => ⟨calls1, fetch.state, .error p⟩
    | .ok fetched =>
      let groupMeta := { fetched with SelfServe := some selfServe }
      let put := cli.PutGroupMeta fetch.state dn gn cli.AuditRef groupMeta
      let calls2 := calls1 ++ [ZmsCall.PutGroupMeta dn gn cli.AuditRef groupMeta]
      match put.err with
      | some err => ⟨calls2, put.state, .ok (none, some err)⟩
      | none =>
        let text := "[domain " ++ dn ++ " group " ++ gn ++
          " self-serve attribute successfully updated]\n"
        let message : SuccessMessage := ⟨200, text⟩
        ⟨calls2, put.state, .ok (cli.dumpByFormatMessage message)⟩

/-- Embedding of `SetGroupUserAuthorityFilter` (group.go, lines 349 to 368). -/
def SetGroupUserAuthorityFilter {σ : Type} (cli : Zms σ) (s : σ) (dn gn : String) (filter : String) :
    CliRun σ :=
  let fetch := cli.GetGroup s dn gn none none
  let calls1 := [ZmsCall.GetGroup dn gn none none]
  match fetch.err with
  | some err => ⟨calls1, fetch.state, .ok (none, some err)⟩
  | none =>
    match getGroupMetaObject fetch.group with
    | .error p => ⟨calls1, fetch.state, .error p⟩
    | .ok fetched =>
      let groupMeta := { fetched with UserAuthorityFilter := filter }
      let put := cli.PutGroupMeta fetch.state dn gn cli.AuditRef groupMeta
      let calls2 := calls1 ++ [ZmsCall.PutGroupMeta dn gn cli.AuditRef groupMeta]
      match put.err with
      | some err => ⟨calls2, put.state, .ok (none, some err)⟩
      | none =>
        let text := "[domain " ++ dn ++ " group " ++ gn ++
          " user-authority-filter attribute successfully updated]\n"
        let message : SuccessMessage := ⟨200, text⟩
        ⟨calls2, put.state, .ok (cli.dumpByFormatMessage message)⟩

/-- Embedding of `SetGroupUserAuthorityExpiration` (group.go, lines 370 to 389). -/
def SetGroupUserAuthorityExpiration {σ : Type} (cli : Zms σ) (s : σ) (dn gn : String) (filter : String) :
    CliRun σ :=
  let fetch := cli.GetGroup s dn gn none none
  let calls1 := [ZmsCall.GetGroup dn gn none none]
  match fetch.err with
  | some err => ⟨calls1, fetch.state, .ok (none, some err)⟩
  | none =>
    match getGroupMetaObject fetch.group with
    | .error p => ⟨calls1, fetch.state, .error p⟩
    | .ok fetched =>
      let groupMeta := { fetched with UserAuthorityExpiration := filter }
      let put := cli.PutGroupMeta fetch.state dn gn cli.AuditRef groupMeta
      let calls2 := calls1 ++ [ZmsCall.PutGroupMeta dn gn cli.AuditRef groupMeta]
      match put.err with
      | some err => ⟨calls2, put.state, .ok (none, some err)⟩
      | none =>
        let text := "[domain " ++ dn ++ " group " ++ gn ++
          " user-authority-expiration attribute successfully updated]\n"
        let message : SuccessMessage := ⟨200, text⟩
        ⟨calls2, put.state, .ok (cli.dumpByFormatMessage message)⟩

/-- Embedding of `SetGroupNotifyRoles` (group.go, lines 391 to 410). -/
def SetGroupNotifyRoles {σ : Type} (cli : Zms σ) (s : σ) (dn gn : String) (notifyRoles : String) :
    CliRun σ :=
  let fetch := cli.GetGroup s dn gn none none
  let calls1 := [ZmsCall.GetGroup dn gn none none]
  match fetch.err with
  | some err => ⟨calls1, fetch.state, .ok (none, some err)⟩
  | none =>
    match getGroupMetaObject fetch.group with
    | .error p => ⟨calls1, fetch.state, .error p⟩
    | .ok fetched =>
      let groupMeta := { fetched with NotifyRoles := notifyRoles }
      let put := cli.PutGroupMeta fetch.state dn gn cli.AuditRef groupMeta
      let calls2 := calls1 ++ [ZmsCall.PutGroupMeta dn gn cli.AuditRef groupMeta]
      match put.err with
      | some err => ⟨calls2, put.state, .ok (none, some err)⟩
      | none =>
        let text := "[domain " ++ dn ++ " group " ++ gn ++
          " notify-roles attribute successfully updated]\n"
        let message : SuccessMessage := ⟨200, text⟩
        ⟨calls2, put.state, .ok (cli.dumpByFormatMessage message)⟩

/-! ### Group tags -/

/-- The entry a group has for a tag key: nil when the group has no tag map, when
the key is not in the map and when the key's entry is nil. -/
def Group.tagIndex (group : Group) (key : String) : Option TagValueList :=
  match group.Tags with
  | none => none
  | some tags => tags.index key

/-- The values a group has for a tag key, none when it has no entry for it. -/
def Group.tagValues (group : Group) (key : String) : List String :=
  match group.tagIndex key with
  | some entry => entry.List
  | none => []

/-- Whether a tag key is in the tag map of a group. -/
def Group.hasTagKey (group : Group) (key : String) : Bool :=
  match group.Tags with
  | none => false
  | some tags => (tags key).isSome

/-- The end of `AddGroupTags` and `DeleteGroupTags` after a successful
`PutGroup` (group.go, lines 485 to 493 and 550 to 559): the group is shown, and
shown again after half a second when the first showing failed or `retryWhen`,
computed from the group shown, holds. -/
def showAfterPut {σ : Type} (cli : Zms σ) (s : σ) (dn gn : String)
    (retryWhen : Option Group → Except Panic Bool) : CliRun σ :=
  let first := ShowGroup cli s dn gn false false
  let again : CliRun σ :=
    let second := ShowGroup cli first.state dn gn false false
    ⟨first.calls ++ [ZmsCall.Sleep 500] ++ second.calls, second.state,
      .ok (second.output, second.err)⟩
  match first.err with
  | some _ => again
  | none =>
    match retryWhen first.group with
    | .error p => ⟨first.calls, first.state, .error p⟩
    | .ok true => again
    | .ok false => ⟨first.calls, first.state, .ok (first.output, none)⟩

/-- Embedding of `AddGroupTags` (group.go, lines 456 to 494). -/
def AddGroupTags {σ : Type} (cli : Zms σ) (s : σ) (dn gn tagKey : String)
    (tagValues : List String) : CliRun σ :=
  let fetch := cli.GetGroup s dn gn none none
  let calls1 := [ZmsCall.GetGroup dn gn none none]
  match fetch.err with
  | some err => ⟨calls1, fetch.state, .ok (none, some err)⟩
  | none =>
    match fetch.group with
    | none => ⟨calls1, fetch.state, .error nilDereference⟩
    | some group =>
      let tagValueArr : List String := []
      let tags : TagMap :=
        match group.Tags with
        | none => TagMap.empty
        | some tags => tags
      let tagValueArr :=
        match group.Tags with
        | none => tagValueArr
        | some tags =>
          match tags.index tagKey with
          | some currentTagValues => tagValueArr ++ currentTagValues.List
          | none => tagValueArr
      let tagValueArr := tagValues.foldl (fun arr tagValue => arr ++ [tagValue]) tagValueArr
      let group := { group with Tags := some (tags.set tagKey (some ⟨tagValueArr⟩)) }
      let put := cli.PutGroup fetch.state dn gn cli.AuditRef group
      let calls2 := calls1 ++ [ZmsCall.PutGroup dn gn cli.AuditRef group]
      match put.err with
      | some err => ⟨calls2, put.state, .ok (none, some err)⟩
      | none =>
        let rest := showAfterPut cli put.state dn gn fun shown =>
          (verifyTagExists shown tagKey tagValues).map fun found => !found
        ⟨calls2 ++ rest.calls, rest.state, rest.outcome⟩

/-- Embedding of `DeleteGroupTags` (group.go, lines 519 to 560). -/
def DeleteGroupTags {σ : Type} (cli : Zms σ) (s : σ) (dn gn tagKey tagValue : String) :
    CliRun σ :=
  let fetch := cli.GetGroup s dn gn none none
  let calls1 := [ZmsCall.GetGroup dn gn none none]
  match fetch.err with
  | some err => ⟨calls1, fetch.state, .ok (none, some err)⟩
  | none =>
    match fetch.group with
    | none => ⟨calls1, fetch.state, .error nilDereference⟩
    | some group =>
      let tagValueArr : List String := []
      let tags : TagMap :=
        match group.Tags with
        | none => TagMap.empty
        | some tags => tags
      let tagValueArr :=
        if tagValue ≠ "" then
          match tags.index tagKey with
          | some currentTagValues =>
            currentTagValues.List.foldl
              (fun arr curTagValue => if tagValue ≠ curTagValue then arr ++ [curTagValue] else arr)
              tagValueArr
          | none => tagValueArr
        else tagValueArr
      let group := { group with Tags := some (tags.set tagKey (some ⟨tagValueArr⟩)) }
      let put := cli.PutGroup fetch.state dn gn cli.AuditRef group
      let calls2 := calls1 ++ [ZmsCall.PutGroup dn gn cli.AuditRef group]
      match put.err with
      | some err => ⟨calls2, put.state, .ok (none, some err)⟩
      | none =>
        let rest := showAfterPut cli put.state dn gn fun shown =>
          verifyTagExists shown tagKey [tagValue]
        ⟨calls2 ++ rest.calls, rest.state, rest.outcome⟩

/-! ### A concrete server -/

/-- A client of a server that holds one group, or none: `GetGroup` returns the
group held or a 404, `PutGroup` stores the group given and `PutGroupMeta` the
meta fields given. -/
def oneGroupZms : Zms (Option Group) where
  AuditRef := "ticket-42"
  GetGroup := fun held _ _ _ _ =>
    match held with
    | some group => ⟨some group, none, held⟩
    | none => ⟨none, some "404 not found", held⟩
  PutGroup := fun _ _ _ _ group => ⟨none, some group⟩
  PutGroupMeta := fun held _ _ _ groupMeta =>
    ⟨none, held.map fun group =>
      { group with
        SelfServe := groupMeta.SelfServe
        ReviewEnabled := groupMeta.ReviewEnabled
        NotifyRoles := groupMeta.NotifyRoles
        UserAuthorityExpiration := groupMeta.UserAuthorityExpiration
        UserAuthorityFilter := groupMeta.UserAuthorityFilter
        MemberExpiryDays := groupMeta.MemberExpiryDays
        ServiceExpiryDays := groupMeta.ServiceExpiryDays
        Tags := groupMeta.Tags }⟩
  dumpByFormatGroup := fun group _ => (group.map fun g => "group:\n  name: " ++ g.Name, none)
  dumpByFormatMessage := fun message => (some message.Message, none)

/-- A group with the values `prod`, `stage` and `prod` again under the tag key
`env` and the value `media` under `team`. -/
def readersGroup : Group where
  Name := "sports:group.readers"
  SelfServe := none
  ReviewEnabled := some true
  NotifyRoles := "admin"
  UserAuthorityExpiration := ""
  UserAuthorityFilter := "employee"
  MemberExpiryDays := some 30
  ServiceExpiryDays := none
  Tags := some fun key =>
    if key = "env" then some (some ⟨["prod", "stage", "prod"]⟩)
    else if key = "team" then some (some ⟨["media"]⟩)
    else none

end Zmscli

namespace Sia

/-! ## Theorems -/

/-- C1: `GetEC2Config` returns the nil error exactly when one of the four
strategies returns the nil error, and the account it returns is the account of
the first strategy, in the order file, environment, credentials, profile, that
returned the nil error (nil when none did). -/
theorem GetEC2Config_first_success {C A : Type} (o : Options C A)
    (configFile metaEndpoint : String) (useRegionalSTS : Bool) (region account : String) :
    ((GetEC2Config o configFile metaEndpoint useRegionalSTS region account).result.err = none ↔
      ∃ r ∈ strategyOutcomes o configFile metaEndpoint useRegionalSTS region account,
        r.succeeded = true) ∧
    (GetEC2Config o configFile metaEndpoint useRegionalSTS region account).result.account =
      firstSuccessfulAccount
        (strategyOutcomes o configFile metaEndpoint useRegionalSTS region account) := by
  simp only [GetEC2Config, strategyOutcomes, firstSuccessfulAccount]
  cases h1 : (o.InitFileConfig configFile metaEndpoint useRegionalSTS region account).err <;>
  cases h2 : (o.InitEnvConfig
    (o.InitFileConfig configFile metaEndpoint useRegionalSTS region account).config).err <;>
  cases h3 : (o.InitCredsConfig "-service" useRegionalSTS region).err <;>
  cases h4 : (o.InitProfileConfig metaEndpoint "-service").err <;>
  simp [List.find?, AccountResult.succeeded, ConfigResult.outcome, h1, h2, h3, h4]


/-- C2: when the file, environment, credentials and profile strategies all
return an error, `GetEC2Config` returns the error of the profile strategy,
which is not nil, and a nil account. -/
theorem GetEC2Config_all_fail {C A : Type} (o : Options C A)
    (configFile metaEndpoint : String) (useRegionalSTS : Bool) (region account : String)
    (hall : ∀ r ∈ strategyOutcomes o configFile metaEndpoint useRegionalSTS region account,
      r.succeeded = false) :
    (GetEC2Config o configFile metaEndpoint useRegionalSTS region account).result.err =
      (o.InitProfileConfig metaEndpoint "-service").err ∧
    (GetEC2Config o configFile metaEndpoint useRegionalSTS region account).result.err ≠ none ∧
    (GetEC2Config o configFile metaEndpoint useRegionalSTS region account).result.account =
      none := by
  revert hall
  simp only [GetEC2Config, strategyOutcomes]
  cases h1 : (o.InitFileConfig configFile metaEndpoint useRegionalSTS region account).err <;>
  cases h2 : (o.InitEnvConfig
    (o.InitFileConfig configFile metaEndpoint useRegionalSTS region account).config).err <;>
  cases h3 : (o.InitCredsConfig "-service" useRegionalSTS region).err <;>
  cases h4 : (o.InitProfileConfig metaEndpoint "-service").err <;>
  simp [AccountResult.succeeded, ConfigResult.outcome, h1, h2, h3, h4]

/-- Witness of C2: with `allFailOptions` all four strategies fail, and the
profile strategy's error comes back with a nil account. -/
theorem GetEC2Config_all_fail_witness :
    (GetEC2Config allFailOptions "sia_config" "http://169.254.169.254" false
        "us-west-2" "1234").result.err =
      (allFailOptions.InitProfileConfig "http://169.254.169.254" "-service").err ∧
    (GetEC2Config allFailOptions "sia_config" "http://169.254.169.254" false
        "us-west-2" "1234").result.err ≠ none ∧
    (GetEC2Config allFailOptions "sia_config" "http://169.254.169.254" false
        "us-west-2" "1234").result.account = none :=
  GetEC2Config_all_fail allFailOptions "sia_config" "http://169.254.169.254" false
    "us-west-2" "1234" (by decide)

/-- C3: when the file strategy succeeds `GetEC2Config` returns its config; when
it fails the second call is the environment strategy on the file strategy's
config, and the config returned is the one the environment strategy returned,
whatever the credentials and profile strategies are; and when the file strategy
fails and the environment strategy succeeds the account returned is the
environment strategy's. -/
theorem GetEC2Config_config_frame {C A : Type} (o : Options C A)
    (configFile metaEndpoint : String) (useRegionalSTS : Bool) (region account : String) :
    let f := o.InitFileConfig configFile metaEndpoint useRegionalSTS region account
    let e := o.InitEnvConfig f.config
    let run := GetEC2Config o configFile metaEndpoint useRegionalSTS region account
    (f.err = none → run.result.config = f.config) ∧
    (f.err ≠ none →
      run.calls[1]? = some (Call.InitEnvConfig f.config) ∧ run.result.config = e.config) ∧
    (∀ (creds : String → Bool → String → AccountResult A)
        (profile : String → String → AccountResult A),
      (GetEC2Config ⟨o.InitFileConfig, o.InitEnvConfig, creds, profile⟩ configFile
        metaEndpoint useRegionalSTS region account).result.config = run.result.config) ∧
    (f.err ≠ none → e.err = none → run.result.account = e.account) := by
  dsimp only
  cases h1 : (o.InitFileConfig configFile metaEndpoint useRegionalSTS region account).err <;>
  cases h2 : (o.InitEnvConfig
    (o.InitFileConfig configFile metaEndpoint useRegionalSTS region account).config).err <;>
  cases h3 : (o.InitCredsConfig "-service" useRegionalSTS region).err <;>
  cases h4 : (o.InitProfileConfig metaEndpoint "-service").err <;>
  refine ⟨by simp [GetEC2Config, h1, h2, h3, h4], by simp [GetEC2Config, h1, h2, h3, h4], ?_,
    by simp [GetEC2Config, h1, h2, h3, h4]⟩ <;>
  intro creds profile <;>
  cases h5 : (creds "-service" useRegionalSTS region).err <;>
  cases h6 : (profile metaEndpoint "-service").err <;>
  simp [GetEC2Config, h1, h2, h3, h4, h5, h6]

/-- Witness of C3: with `envSucceedsOptions` the file strategy fails, the
environment strategy is called on the config the file strategy left, and its
config and account are the ones returned. -/
theorem GetEC2Config_config_frame_witness :
    (envSucceedsOptions.InitFileConfig "sia_config" "http://169.254.169.254" false
        "us-west-2" "1234").err ≠ none ∧
    (GetEC2Config envSucceedsOptions "sia_config" "http://169.254.169.254" false
        "us-west-2" "1234").calls[1]? = some (Call.InitEnvConfig (some "file-config")) ∧
    (GetEC2Config envSucceedsOptions "sia_config" "http://169.254.169.254" false
        "us-west-2" "1234").result.config = some "env-config over file-config" ∧
    (GetEC2Config envSucceedsOptions "sia_config" "http://169.254.169.254" false
        "us-west-2" "1234").result.account = some "env-account" :=
  have h := GetEC2Config_config_frame envSucceedsOptions "sia_config"
    "http://169.254.169.254" false "us-west-2" "1234"
  ⟨by decide, (h.2.1 (by decide)).1, (h.2.1 (by decide)).2, h.2.2.2 (by decide) rfl⟩

/-- Counterexample to C4: with `emptyAccountOptions` the file strategy returns
the nil error and a nil account, and `GetEC2Config` calls no other strategy and
returns the nil error with the nil account. -/
theorem GetEC2Config_empty_account_counterexample :
    (emptyAccountOptions.InitFileConfig "sia_config" "http://169.254.169.254" false
        "us-west-2" "1234").err = none ∧
    (emptyAccountOptions.InitFileConfig "sia_config" "http://169.254.169.254" false
        "us-west-2" "1234").account = none ∧
    (GetEC2Config emptyAccountOptions "sia_config" "http://169.254.169.254" false
        "us-west-2" "1234").calls =
      [Call.InitFileConfig "sia_config" "http://169.254.169.254" false "us-west-2" "1234"] ∧
    (GetEC2Config emptyAccountOptions "sia_config" "http://169.254.169.254" false
        "us-west-2" "1234").result.err = none ∧
    (GetEC2Config emptyAccountOptions "sia_config" "http://169.254.169.254" false
        "us-west-2" "1234").result.account = none :=
  ⟨rfl, rfl, rfl, rfl, rfl⟩

/-- C4, amended: a strategy fails for `GetEC2Config` exactly when it returns an
error, whatever its account. When the file strategy returns the nil error,
`GetEC2Config` makes no other call and returns the file strategy's config and
account, nil or not, with the nil error; the environment strategy is called
exactly when the file strategy returns an error. -/
theorem GetEC2Config_nil_error_is_success {C A : Type} (o : Options C A)
    (configFile metaEndpoint : String) (useRegionalSTS : Bool) (region account : String) :
    let f := o.InitFileConfig configFile metaEndpoint useRegionalSTS region account
    let run := GetEC2Config o configFile metaEndpoint useRegionalSTS region account
    (f.err = none →
      run.calls = [Call.InitFileConfig configFile metaEndpoint useRegionalSTS region account] ∧
      run.result.config = f.config ∧ run.result.account = f.account ∧
      run.result.err = none) ∧
    ((∃ c, Call.InitEnvConfig c ∈ run.calls) ↔ f.err ≠ none) := by
  dsimp only
  cases h1 : (o.InitFileConfig configFile metaEndpoint useRegionalSTS region account).err <;>
  cases h2 : (o.InitEnvConfig
    (o.InitFileConfig configFile metaEndpoint useRegionalSTS region account).config).err <;>
  cases h3 : (o.InitCredsConfig "-service" useRegionalSTS region).err <;>
  cases h4 : (o.InitProfileConfig metaEndpoint "-service").err <;>
  simp [GetEC2Config, h1, h2, h3, h4]

/-- Witness of the amended C4: with `emptyAccountOptions` the file strategy
returns the nil error, and its nil account is returned after a single call. -/
theorem GetEC2Config_nil_error_is_success_witness :
    (GetEC2Config emptyAccountOptions "sia_config" "http://169.254.169.254" false
        "us-west-2" "1234").calls =
      [Call.InitFileConfig "sia_config" "http://169.254.169.254" false "us-west-2" "1234"] ∧
    (GetEC2Config emptyAccountOptions "sia_config" "http://169.254.169.254" false
        "us-west-2" "1234").result.config = some "file-config" ∧
    (GetEC2Config emptyAccountOptions "sia_config" "http://169.254.169.254" false
        "us-west-2" "1234").result.account = none ∧
    (GetEC2Config emptyAccountOptions "sia_config" "http://169.254.169.254" false
        "us-west-2" "1234").result.err = none :=
  (GetEC2Config_nil_error_is_success emptyAccountOptions "sia_config"
    "http://169.254.169.254" false "us-west-2" "1234").1 rfl

/-- C5: two sets of strategies whose file, environment (on the config the file
strategy returned) and credentials strategies return the same configs and
accounts and fail or succeed alike, with whatever errors, and whose profile
strategies return the same values, make `GetEC2Config` return the same config,
account and error. -/
theorem GetEC2Config_error_values_irrelevant {C A : Type} (o₁ o₂ : Options C A)
    (configFile metaEndpoint : String) (useRegionalSTS : Bool) (region account : String)
    (hfile :
      (o₁.InitFileConfig configFile metaEndpoint useRegionalSTS region account).config =
        (o₂.InitFileConfig configFile metaEndpoint useRegionalSTS region account).config ∧
      (o₁.InitFileConfig configFile metaEndpoint useRegionalSTS region account).account =
        (o₂.InitFileConfig configFile metaEndpoint useRegionalSTS region account).account ∧
      ((o₁.InitFileConfig configFile metaEndpoint useRegionalSTS region account).err = none ↔
        (o₂.InitFileConfig configFile metaEndpoint useRegionalSTS region account).err = none))
    (henv : ∀ config,
      config = (o₁.InitFileConfig configFile metaEndpoint useRegionalSTS region account).config →
      (o₁.InitEnvConfig config).config = (o₂.InitEnvConfig config).config ∧
      (o₁.InitEnvConfig config).account = (o₂.InitEnvConfig config).account ∧
      ((o₁.InitEnvConfig config).err = none ↔ (o₂.InitEnvConfig config).err = none))
    (hcreds :
      (o₁.InitCredsConfig "-service" useRegionalSTS region).account =
        (o₂.InitCredsConfig "-service" useRegionalSTS region).account ∧
      ((o₁.InitCredsConfig "-service" useRegionalSTS region).err = none ↔
        (o₂.InitCredsConfig "-service" useRegionalSTS region).err = none))
    (hprofile : o₁.InitProfileConfig metaEndpoint "-service" =
      o₂.InitProfileConfig metaEndpoint "-service") :
    (GetEC2Config o₁ configFile metaEndpoint useRegionalSTS region account).result =
      (GetEC2Config o₂ configFile metaEndpoint useRegionalSTS region account).result := by
  obtain ⟨hfc, hfa, hfe⟩ := hfile
  obtain ⟨hec, hea, hee⟩ :=
    henv (o₂.InitFileConfig configFile metaEndpoint useRegionalSTS region account).config
      hfc.symm
  obtain ⟨hca, hce⟩ := hcreds
  simp only [GetEC2Config, hfc, hfa, hec, hea, hca, hprofile]
  cases h1 : (o₁.InitFileConfig configFile metaEndpoint useRegionalSTS region account).err <;>
  cases h1' : (o₂.InitFileConfig configFile metaEndpoint useRegionalSTS region account).err <;>
  cases h2 : (o₁.InitEnvConfig
    (o₂.InitFileConfig configFile metaEndpoint useRegionalSTS region account).config).err <;>
  cases h2' : (o₂.InitEnvConfig
    (o₂.InitFileConfig configFile metaEndpoint useRegionalSTS region account).config).err <;>
  cases h3 : (o₁.InitCredsConfig "-service" useRegionalSTS region).err <;>
  cases h3' : (o₂.InitCredsConfig "-service" useRegionalSTS region).err <;>
  cases h4 : (o₂.InitProfileConfig metaEndpoint "-service").err <;>
  simp_all

/-- Witness of C5: `allFailOptions` and `allFailOptionsOtherErrors` differ in the
error texts of the first three strategies only, and give the same result. -/
theorem GetEC2Config_error_values_irrelevant_witness :
    (allFailOptions.InitFileConfig "sia_config" "http://169.254.169.254" false
        "us-west-2" "1234").err ≠
      (allFailOptionsOtherErrors.InitFileConfig "sia_config" "http://169.254.169.254" false
        "us-west-2" "1234").err ∧
    (GetEC2Config allFailOptions "sia_config" "http://169.254.169.254" false
        "us-west-2" "1234").result =
      (GetEC2Config allFailOptionsOtherErrors "sia_config" "http://169.254.169.254" false
        "us-west-2" "1234").result :=
  ⟨by decide,
    GetEC2Config_error_values_irrelevant allFailOptions allFailOptionsOtherErrors "sia_config"
      "http://169.254.169.254" false "us-west-2" "1234"
      ⟨rfl, rfl, by decide⟩ (fun _ hc => by subst hc; exact ⟨rfl, rfl, by decide⟩)
      ⟨rfl, by decide⟩ rfl⟩

/-- A value that is nil or a string passes the type assertion of `getDocValue`,
which returns its text. -/
theorem getDocValue_of_isNilOrString (docMap : DocMap) (key : String)
    (hv : (docMap.index key).isNilOrString = true) :
    getDocValue docMap key = .ok (docMap.index key).text := by
  unfold getDocValue
  cases hidx : docMap.index key <;> simp_all [JSON.isNilOrString, JSON.text]

/-- With both fetches successful, the document decoded without error and the
four keys nil or strings, `GetEC2DocumentDetails` returns the bytes fetched, the
texts of the three fields and the time `time.Parse` returned, with the nil error. -/
theorem GetEC2DocumentDetails_of_decoded (h : Host) (metaEndPoint : String)
    (document signature : Option Bytes) (docMap : DocMap)
    (hdoc : h.GetData metaEndPoint "/latest/dynamic/instance-identity/document" =
      (document, none))
    (hsig : h.GetData metaEndPoint "/latest/dynamic/instance-identity/pkcs7" =
      (signature, none))
    (hdec : Unmarshal h document = (docMap, none))
    (hkeys : ∀ key ∈ documentKeys, (docMap.index key).isNilOrString = true) :
    GetEC2DocumentDetails h metaEndPoint =
      .ok (document, signature, (docMap.index "accountId").text,
        (docMap.index "instanceId").text, (docMap.index "region").text,
        some (timeParse h (docMap.index "pendingTime").text).1, none) := by
  have ha := getDocValue_of_isNilOrString docMap "accountId" (hkeys _ (by simp [documentKeys]))
  have hr := getDocValue_of_isNilOrString docMap "region" (hkeys _ (by simp [documentKeys]))
  have hi := getDocValue_of_isNilOrString docMap "instanceId" (hkeys _ (by simp [documentKeys]))
  have hp := getDocValue_of_isNilOrString docMap "pendingTime" (hkeys _ (by simp [documentKeys]))
  simp [GetEC2DocumentDetails, hdoc, hsig, hdec, ha, hr, hi, hp, bind, Except.bind, pure,
    Except.pure]

/-- The map `Unmarshal` leaves for the text of a JSON object is the map of its
members, and the error is nil. -/
theorem Unmarshal_object (h : Host) (data : Option Bytes) (members : List (String × JSON))
    (hval : h.jsonValue data = .ok (JSON.object members)) :
    Unmarshal h data = (some members, none) := by
  simp [Unmarshal, hval]

/-- C6: when the fetch of the document fails, or the fetch of the document
succeeds and the fetch of the signature fails, `GetEC2DocumentDetails` returns
the error of that fetch with nil document bytes, nil signature bytes, empty
account, instance id and region, and a nil time. -/
theorem GetEC2DocumentDetails_fetch_failure (h : Host) (metaEndPoint : String) (err : String) :
    ((h.GetData metaEndPoint "/latest/dynamic/instance-identity/document").2 = some err →
      GetEC2DocumentDetails h metaEndPoint = .ok (none, none, "", "", "", none, some err)) ∧
    ((h.GetData metaEndPoint "/latest/dynamic/instance-identity/document").2 = none →
      (h.GetData metaEndPoint "/latest/dynamic/instance-identity/pkcs7").2 = some err →
      GetEC2DocumentDetails h metaEndPoint = .ok (none, none, "", "", "", none, some err)) := by
  constructor
  · intro hdoc
    simp [GetEC2DocumentDetails, hdoc]
  · intro hdoc hsig
    simp [GetEC2DocumentDetails, hdoc, hsig]

/-- Witness of C6: the document is fetched, the signature is not, and neither
the document nor anything read from it is returned. -/
theorem GetEC2DocumentDetails_fetch_failure_witness :
    GetEC2DocumentDetails
        (evidenceHost (some fullDocument, none) (none, some "503 Service Unavailable")
          (.ok (JSON.object fullMembers)))
        "http://169.254.169.254" =
      .ok (none, none, "", "", "", none, some "503 Service Unavailable") :=
  (GetEC2DocumentDetails_fetch_failure
    (evidenceHost (some fullDocument, none) (none, some "503 Service Unavailable")
      (.ok (JSON.object fullMembers)))
    "http://169.254.169.254" "503 Service Unavailable").2 rfl rfl

/-- C7: when both fetches succeed and the document is a JSON object in which
`accountId`, `region`, `instanceId` and `pendingTime` are strings, the last one
an RFC3339 text, `GetEC2DocumentDetails` returns, in this order, the document
bytes, the signature bytes, the account, the instance id, the region, the parsed
time and the nil error. -/
theorem GetEC2DocumentDetails_valid_document (h : Host) (metaEndPoint : String)
    (document signature : Option Bytes) (members : List (String × JSON))
    (accountId region instanceId pendingTime : String) (t : Time)
    (hdoc : h.GetData metaEndPoint "/latest/dynamic/instance-identity/document" =
      (document, none))
    (hsig : h.GetData metaEndPoint "/latest/dynamic/instance-identity/pkcs7" =
      (signature, none))
    (hobj : h.jsonValue document = .ok (JSON.object members))
    (haccount : mapIndex members "accountId" = some (JSON.string accountId))
    (hregion : mapIndex members "region" = some (JSON.string region))
    (hinstance : mapIndex members "instanceId" = some (JSON.string instanceId))
    (hpending : mapIndex members "pendingTime" = some (JSON.string pendingTime))
    (htime : h.parseRFC3339 pendingTime = .ok t) :
    GetEC2DocumentDetails h metaEndPoint =
      .ok (document, signature, accountId, instanceId, region, some t, none) := by
  have hkeys : ∀ key ∈ documentKeys,
      (DocMap.index (some members) key).isNilOrString = true := by
    intro key hk
    simp only [documentKeys, List.mem_cons, List.mem_singleton, List.not_mem_nil, or_false] at hk
    rcases hk with rfl | rfl | rfl | rfl <;>
    simp [DocMap.index, JSON.isNilOrString, haccount, hregion, hinstance, hpending]
  rw [GetEC2DocumentDetails_of_decoded h metaEndPoint document signature (some members)
    hdoc hsig (Unmarshal_object h document members hobj) hkeys]
  simp [DocMap.index, JSON.text, timeParse, haccount, hregion, hinstance, hpending, htime]

/-- Witness of C7: the host serves `fullDocument` and `sampleSignature`. -/
theorem GetEC2DocumentDetails_valid_document_witness :
    GetEC2DocumentDetails
        (evidenceHost (some fullDocument, none) (some sampleSignature, none)
          (.ok (JSON.object fullMembers)))
        "http://169.254.169.254" =
      .ok (some fullDocument, some sampleSignature, "123456789012", "i-0abc1234",
        "us-west-2", some ⟨63839761445, 0⟩, none) :=
  GetEC2DocumentDetails_valid_document
    (evidenceHost (some fullDocument, none) (some sampleSignature, none)
      (.ok (JSON.object fullMembers)))
    "http://169.254.169.254" (some fullDocument) (some sampleSignature) fullMembers
    "123456789012" "us-west-2" "i-0abc1234" "2024-01-02T03:04:05Z" ⟨63839761445, 0⟩
    rfl rfl (by simp [evidenceHost]) rfl rfl rfl rfl rfl

/-- A key the members lack is a key the map gives nil. -/
theorem index_of_lacksKey (members : List (String × JSON)) (key : String)
    (hk : lacksKey members key = true) : DocMap.index (some members) key = JSON.null := by
  unfold lacksKey at hk
  cases hidx : mapIndex members key with
  | none => simp [DocMap.index, hidx]
  | some v => cases v <;> simp_all [DocMap.index]

/-- C8: `getDocValue` returns the empty string for every key of the nil map and
for every key the map lacks or maps to `null`; and when both fetches succeed
and the document is a JSON object that is well formed but for what it lacks
(each of `accountId`, `region`, `instanceId` and `pendingTime` is absent,
`null` or a string), then for each of `accountId`, `region` and `instanceId`
that the object lacks, `GetEC2DocumentDetails` returns the nil error with the
empty string for that field, the texts of the other two fields, the bytes
fetched and the time `time.Parse` returned. -/
theorem GetEC2DocumentDetails_missing_field (h : Host) (metaEndPoint : String)
    (document signature : Option Bytes) (members : List (String × JSON)) :
    (∀ key, getDocValue none key = .ok "") ∧
    (∀ key, lacksKey members key = true → getDocValue (some members) key = .ok "") ∧
    (h.GetData metaEndPoint "/latest/dynamic/instance-identity/document" = (document, none) →
      h.GetData metaEndPoint "/latest/dynamic/instance-identity/pkcs7" = (signature, none) →
      h.jsonValue document = .ok (JSON.object members) →
      (∀ key ∈ documentKeys, (DocMap.index (some members) key).isNilOrString = true) →
      (lacksKey members "accountId" = true →
        GetEC2DocumentDetails h metaEndPoint =
          .ok (document, signature, "", (DocMap.index (some members) "instanceId").text,
            (DocMap.index (some members) "region").text,
            some (timeParse h (DocMap.index (some members) "pendingTime").text).1, none)) ∧
      (lacksKey members "region" = true →
        GetEC2DocumentDetails h metaEndPoint =
          .ok (document, signature, (DocMap.index (some members) "accountId").text,
            (DocMap.index (some members) "instanceId").text, "",
            some (timeParse h (DocMap.index (some members) "pendingTime").text).1, none)) ∧
      (lacksKey members "instanceId" = true →
        GetEC2DocumentDetails h metaEndPoint =
          .ok (document, signature, (DocMap.index (some members) "accountId").text, "",
            (DocMap.index (some members) "region").text,
            some (timeParse h (DocMap.index (some members) "pendingTime").text).1, none))) := by
  refine ⟨fun key => rfl, ?_, ?_⟩
  · intro key hk
    simp [getDocValue, index_of_lacksKey members key hk]
  · intro hdoc hsig hobj hkeys
    have hall := GetEC2DocumentDetails_of_decoded h metaEndPoint document signature
      (some members) hdoc hsig (Unmarshal_object h document members hobj) hkeys
    refine ⟨?_, ?_, ?_⟩ <;> intro hk <;> rw [hall, index_of_lacksKey members _ hk] <;> rfl

/-- Witness of C8: `noRegionDocument` has strings under the other
three keys, and the region returned is empty. -/
theorem GetEC2DocumentDetails_missing_field_witness :
    GetEC2DocumentDetails
        (evidenceHost (some noRegionDocument, none) (some sampleSignature, none)
          (.ok (JSON.object noRegionMembers)))
        "http://169.254.169.254" =
      .ok (some noRegionDocument, some sampleSignature, "123456789012", "i-0abc1234", "",
        some ⟨63839761445, 0⟩, none) :=
  ((GetEC2DocumentDetails_missing_field
    (evidenceHost (some noRegionDocument, none) (some sampleSignature, none)
      (.ok (JSON.object noRegionMembers)))
    "http://169.254.169.254" (some noRegionDocument) (some sampleSignature)
    noRegionMembers).2.2 rfl rfl (by simp [evidenceHost])
    (by simp [documentKeys, DocMap.index, mapIndex, noRegionMembers,
      JSON.isNilOrString])).2.1 rfl

/-- Counterexample to C9: for `noPendingTimeDocument`, a JSON object without
`pendingTime`, the time returned is not nil but the zero time; and for
`numericInstanceDocument`, whose `pendingTime` is not an RFC3339 text, the call
panics on the number under `instanceId` instead of returning. -/
theorem GetEC2DocumentDetails_pending_time_counterexample :
    (lacksKey noPendingTimeMembers "pendingTime" = true ∧
      GetEC2DocumentDetails
          (evidenceHost (some noPendingTimeDocument, none) (some sampleSignature, none)
            (.ok (JSON.object noPendingTimeMembers)))
          "http://169.254.169.254" =
        .ok (some noPendingTimeDocument, some sampleSignature, "123456789012", "i-0abc1234",
          "us-west-2", some Time.zero, none)) ∧
    (mapIndex numericInstanceMembers "pendingTime" = some (JSON.string "yesterday") ∧
      sampleRFC3339 "yesterday" =
        .error "parsing time \"yesterday\" as \"2006-01-02T15:04:05Z07:00\"" ∧
      GetEC2DocumentDetails
          (evidenceHost (some numericInstanceDocument, none) (some sampleSignature, none)
            (.ok (JSON.object numericInstanceMembers)))
          "http://169.254.169.254" =
        .error ⟨"interface conversion: interface \x7b\x7d is float64, not string"⟩) :=
  ⟨⟨rfl, by
      simp [GetEC2DocumentDetails, evidenceHost, Unmarshal, getDocValue, DocMap.index,
        mapIndex, noPendingTimeMembers, timeParse, sampleRFC3339, bind, Except.bind, pure,
        Except.pure]⟩,
    rfl, rfl, by
      simp [GetEC2DocumentDetails, evidenceHost, Unmarshal, getDocValue, DocMap.index,
        mapIndex, numericInstanceMembers, JSON.goType, bind, Except.bind]⟩

/-- C9, amended: when both fetches succeed, the document is a JSON object in
which each of `accountId`, `region` and `instanceId` is absent, `null` or a
string, and `pendingTime` is missing (the empty string not being an RFC3339
text) or is a string that is not an RFC3339 text, `GetEC2DocumentDetails`
returns the nil error with the document, the signature, the account, the
instance id and the region, and the time returned is not nil: it is the zero
time. -/
theorem GetEC2DocumentDetails_unparsable_pending_time (h : Host) (metaEndPoint : String)
    (document signature : Option Bytes) (members : List (String × JSON))
    (hdoc : h.GetData metaEndPoint "/latest/dynamic/instance-identity/document" =
      (document, none))
    (hsig : h.GetData metaEndPoint "/latest/dynamic/instance-identity/pkcs7" =
      (signature, none))
    (hobj : h.jsonValue document = .ok (JSON.object members))
    (hkeys : ∀ key ∈ ["accountId", "region", "instanceId"],
      (DocMap.index (some members) key).isNilOrString = true)
    (hpending :
      (lacksKey members "pendingTime" = true ∧ ∃ e, h.parseRFC3339 "" = .error e) ∨
      ∃ s e, mapIndex members "pendingTime" = some (JSON.string s) ∧
        h.parseRFC3339 s = .error e) :
    GetEC2DocumentDetails h metaEndPoint =
      .ok (document, signature, (DocMap.index (some members) "accountId").text,
        (DocMap.index (some members) "instanceId").text,
        (DocMap.index (some members) "region").text, some Time.zero, none) := by
  have hp : (DocMap.index (some members) "pendingTime").isNilOrString = true ∧
      (timeParse h (DocMap.index (some members) "pendingTime").text).1 = Time.zero := by
    rcases hpending with ⟨hk, e, he⟩ | ⟨s, e, hs, he⟩
    · rw [index_of_lacksKey members _ hk]
      simp [JSON.isNilOrString, JSON.text, timeParse, he]
    · simp [DocMap.index, hs, JSON.isNilOrString, JSON.text, timeParse, he]
  have hall : ∀ key ∈ documentKeys,
      (DocMap.index (some members) key).isNilOrString = true := by
    intro key hk
    simp only [documentKeys, List.mem_cons, List.mem_singleton, List.not_mem_nil, or_false] at hk
    rcases hk with rfl | rfl | rfl | rfl
    · exact hkeys _ (by simp)
    · exact hkeys _ (by simp)
    · exact hkeys _ (by simp)
    · exact hp.1
  rw [GetEC2DocumentDetails_of_decoded h metaEndPoint document signature (some members)
    hdoc hsig (Unmarshal_object h document members hobj) hall, hp.2]

/-- Witness of the amended C9: `noPendingTimeDocument` has no `pendingTime`, and
the time returned is the zero time. -/
theorem GetEC2DocumentDetails_unparsable_pending_time_witness :
    GetEC2DocumentDetails
        (evidenceHost (some noPendingTimeDocument, none) (some sampleSignature, none)
          (.ok (JSON.object noPendingTimeMembers)))
        "http://169.254.169.254" =
      .ok (some noPendingTimeDocument, some sampleSignature, "123456789012", "i-0abc1234",
        "us-west-2", some Time.zero, none) :=
  GetEC2DocumentDetails_unparsable_pending_time
    (evidenceHost (some noPendingTimeDocument, none) (some sampleSignature, none)
      (.ok (JSON.object noPendingTimeMembers)))
    "http://169.254.169.254" (some noPendingTimeDocument) (some sampleSignature)
    noPendingTimeMembers rfl rfl (by simp [evidenceHost])
    (by simp [DocMap.index, mapIndex, noPendingTimeMembers, JSON.isNilOrString])
    (Or.inl ⟨rfl, _, rfl⟩)

/-- C10: `GetECSOnEC2TaskId` returns the empty string when
`ECS_CONTAINER_METADATA_FILE` is unset or empty, when the file it names cannot
be read, when the content is not JSON or is a JSON value that is not an object,
and when the parser rejects the `TaskARN` value; and with the variable set, the
file read, the content a JSON object and `TaskARN` a string or missing (read as
the empty string), it returns the task id of the parser whenever the parser
accepts. The parser is any parser, but for the content `null`: `json.Unmarshal`
accepts it and leaves the map nil, the empty string goes to the parser, and the
parser there is `util.ParseTaskArn` as modelled from the spec, which rejects
it. -/
theorem GetECSOnEC2TaskId_outcome (h : Host) :
    ((h.LookupEnv "ECS_CONTAINER_METADATA_FILE" = none ∨
        h.LookupEnv "ECS_CONTAINER_METADATA_FILE" = some "") →
      (GetECSOnEC2TaskId h).outcome = .ok "") ∧
    (∀ ecs, h.LookupEnv "ECS_CONTAINER_METADATA_FILE" = some ecs → ecs ≠ "" →
      (∀ e, (h.ReadFile ecs).2 = some e → (GetECSOnEC2TaskId h).outcome = .ok "") ∧
      ((h.ReadFile ecs).2 = none →
        (∀ e, h.jsonValue (h.ReadFile ecs).1 = .error e →
          (GetECSOnEC2TaskId h).outcome = .ok "") ∧
        (∀ v, h.jsonValue (h.ReadFile ecs).1 = .ok v → v.isObject = false →
          (v = JSON.null → h.ParseTaskArn = ParseTaskArn) →
          (GetECSOnEC2TaskId h).outcome = .ok "") ∧
        (∀ members, h.jsonValue (h.ReadFile ecs).1 = .ok (JSON.object members) →
          (DocMap.index (some members) "TaskARN").isNilOrString = true →
          ((h.ParseTaskArn (DocMap.index (some members) "TaskARN").text).2.2.2 ≠ none →
            (GetECSOnEC2TaskId h).outcome = .ok "") ∧
          ((h.ParseTaskArn (DocMap.index (some members) "TaskARN").text).2.2.2 = none →
            (GetECSOnEC2TaskId h).outcome =
              .ok (h.ParseTaskArn (DocMap.index (some members) "TaskARN").text).2.1)))) := by
  constructor
  · rintro (henv | henv) <;> simp [GetECSOnEC2TaskId, Host.Getenv, henv]
  · intro ecs henv hne
    have hget : h.Getenv "ECS_CONTAINER_METADATA_FILE" = ecs := by simp [Host.Getenv, henv]
    refine ⟨?_, ?_⟩
    · intro e hread
      simp [GetECSOnEC2TaskId, hget, hne, hread]
    · intro hread
      refine ⟨?_, ?_, ?_⟩
      · intro e hjson
        simp [GetECSOnEC2TaskId, hget, hne, hread, Unmarshal, hjson]
      · intro v hjson hobj hnull
        cases v with
        | null =>
          have hrej : (h.ParseTaskArn "").2.2.2 =
              some ("unable to parse task arn: " ++ "") := by
            rw [hnull rfl]
            rfl
          simp [GetECSOnEC2TaskId, hget, hne, hread, Unmarshal, hjson, getDocValue,
            DocMap.index, hrej]
        | object members => simp [JSON.isObject] at hobj
        | bool b => simp [GetECSOnEC2TaskId, hget, hne, hread, Unmarshal, hjson]
        | number t => simp [GetECSOnEC2TaskId, hget, hne, hread, Unmarshal, hjson]
        | string t => simp [GetECSOnEC2TaskId, hget, hne, hread, Unmarshal, hjson]
        | array xs => simp [GetECSOnEC2TaskId, hget, hne, hread, Unmarshal, hjson]
      · intro members hjson hstr
        have hval := getDocValue_of_isNilOrString (some members) "TaskARN" hstr
        constructor
        · intro hrej
          obtain ⟨e, he⟩ := Option.ne_none_iff_exists'.mp hrej
          simp [GetECSOnEC2TaskId, hget, hne, hread, Unmarshal, hjson, hval, he]
        · intro hacc
          simp [GetECSOnEC2TaskId, hget, hne, hread, Unmarshal, hjson, hval, hacc]

/-- Witness of C10: the variable names a readable file; with the content `null`
the empty string is returned, and with the content `taskFile` the task id of
its `TaskARN`. -/
theorem GetECSOnEC2TaskId_outcome_witness :
    (GetECSOnEC2TaskId
        (specTaskHost (some "/opt/ecs/metadata/ecs-container-metadata.json")
          (some nullTaskFile, none) (.ok JSON.null))).outcome = .ok "" ∧
    (GetECSOnEC2TaskId
        (taskHost (some "/opt/ecs/metadata/ecs-container-metadata.json") (some taskFile, none)
          (.ok (JSON.object taskMembers)))).outcome = .ok "abcd1234" :=
  ⟨(((GetECSOnEC2TaskId_outcome
      (specTaskHost (some "/opt/ecs/metadata/ecs-container-metadata.json")
        (some nullTaskFile, none) (.ok JSON.null))).2
      "/opt/ecs/metadata/ecs-container-metadata.json" rfl (by decide)).2 rfl).2.1
      JSON.null (by simp [specTaskHost, taskHost]) rfl (fun _ => rfl),
    ((((GetECSOnEC2TaskId_outcome
      (taskHost (some "/opt/ecs/metadata/ecs-container-metadata.json") (some taskFile, none)
        (.ok (JSON.object taskMembers)))).2
      "/opt/ecs/metadata/ecs-container-metadata.json" rfl (by decide)).2 rfl).2.2
      taskMembers (by simp [taskHost]) rfl).2 rfl⟩

/-- C11, evaluated where the code departs from it: with the variable set and
the file read, a `TaskARN` that is a number, a boolean, an array or an object
makes `GetECSOnEC2TaskId` panic in the type assertion of `getDocValue` instead
of returning a string. -/
theorem GetECSOnEC2TaskId_non_string_TaskARN_panics :
    (GetECSOnEC2TaskId
        (taskHost (some "/opt/ecs/metadata/ecs-container-metadata.json")
          (some numberTaskFile, none)
          (.ok (JSON.object [("TaskARN", JSON.number "42")])))).outcome =
      .error ⟨"interface conversion: interface \x7b\x7d is float64, not string"⟩ ∧
    (GetECSOnEC2TaskId
        (taskHost (some "/opt/ecs/metadata/ecs-container-metadata.json")
          (some boolTaskFile, none)
          (.ok (JSON.object [("TaskARN", JSON.bool true)])))).outcome =
      .error ⟨"interface conversion: interface \x7b\x7d is bool, not string"⟩ ∧
    (GetECSOnEC2TaskId
        (taskHost (some "/opt/ecs/metadata/ecs-container-metadata.json")
          (some arrayTaskFile, none)
          (.ok (JSON.object [("TaskARN", JSON.array [])])))).outcome =
      .error ⟨"interface conversion: interface \x7b\x7d is []interface \x7b\x7d, not string"⟩ ∧
    (GetECSOnEC2TaskId
        (taskHost (some "/opt/ecs/metadata/ecs-container-metadata.json")
          (some objectTaskFile, none)
          (.ok (JSON.object [("TaskARN", JSON.object [])])))).outcome =
      .error
        ⟨"interface conversion: interface \x7b\x7d is map[string]interface \x7b\x7d, not string"⟩ := by
  refine ⟨?_, ?_, ?_, ?_⟩ <;>
  simp [GetECSOnEC2TaskId, Host.Getenv, taskHost, Unmarshal, getDocValue, DocMap.index,
    mapIndex, JSON.goType]

/-- C12: with the variable set, the file read and the content a JSON object,
`GetECSOnEC2TaskId` returns, for a `TaskARN` string the parser accepts, the
second of the three strings the parser returns; and with the parser modelled
from the spec, the `TaskARN`
`arn:aws:ecs:us-west-2:1234:task/my-cluster/abcd1234` gives `abcd1234`. -/
theorem GetECSOnEC2TaskId_task_id (h : Host) (ecs : String) (members : List (String × JSON))
    (henv : h.LookupEnv "ECS_CONTAINER_METADATA_FILE" = some ecs) (hne : ecs ≠ "")
    (hread : (h.ReadFile ecs).2 = none)
    (hobj : h.jsonValue (h.ReadFile ecs).1 = .ok (JSON.object members)) :
    (∀ taskArn, mapIndex members "TaskARN" = some (JSON.string taskArn) →
      (h.ParseTaskArn taskArn).2.2.2 = none →
      (GetECSOnEC2TaskId h).outcome = .ok (h.ParseTaskArn taskArn).2.1) ∧
    (h.ParseTaskArn = ParseTaskArn →
      mapIndex members "TaskARN" =
        some (JSON.string "arn:aws:ecs:us-west-2:1234:task/my-cluster/abcd1234") →
      (GetECSOnEC2TaskId h).outcome = .ok "abcd1234") := by
  have hget : h.Getenv "ECS_CONTAINER_METADATA_FILE" = ecs := by simp [Host.Getenv, henv]
  have key : ∀ taskArn, mapIndex members "TaskARN" = some (JSON.string taskArn) →
      (h.ParseTaskArn taskArn).2.2.2 = none →
      (GetECSOnEC2TaskId h).outcome = .ok (h.ParseTaskArn taskArn).2.1 := by
    intro taskArn harn hacc
    simp [GetECSOnEC2TaskId, hget, hne, hread, Unmarshal, hobj, getDocValue, DocMap.index,
      harn, hacc]
  refine ⟨key, ?_⟩
  intro hparser harn
  have hacc : (h.ParseTaskArn "arn:aws:ecs:us-west-2:1234:task/my-cluster/abcd1234").2.2.2 =
      none := by rw [hparser]; rfl
  rw [key _ harn hacc, hparser]
  rfl

/-- The parser modelled from the spec rejects the empty string, which is what a
missing `TaskARN` is read as. -/
theorem ParseTaskArn_rejects_empty : (ParseTaskArn "").2.2.2 ≠ none := by
  decide

/-- Witness of C12: a host with the parser modelled from the spec, whose
metadata file holds the ARN of the spec's example. -/
theorem GetECSOnEC2TaskId_task_id_witness :
    (GetECSOnEC2TaskId
        (specTaskHost (some "/opt/ecs/metadata/ecs-container-metadata.json")
          (some taskFile, none) (.ok (JSON.object taskMembers)))).outcome = .ok "abcd1234" :=
  (GetECSOnEC2TaskId_task_id
    (specTaskHost (some "/opt/ecs/metadata/ecs-container-metadata.json")
      (some taskFile, none) (.ok (JSON.object taskMembers)))
    "/opt/ecs/metadata/ecs-container-metadata.json" taskMembers rfl (by decide) rfl
    (by simp [specTaskHost, taskHost])).2 rfl rfl

end Sia

namespace Zmscli

open Sia (GoError Panic)

/-- A list is a prefix of another exactly when the other is the list followed by
some rest. -/
theorem isPrefixOf_iff_append (sub l : List Char) :
    sub.isPrefixOf l = true ↔ ∃ post, l = sub ++ post := by
  induction sub generalizing l with
  | nil => simp [List.isPrefixOf]
  | cons a sub ih =>
    cases l with
    | nil => simp [List.isPrefixOf]
    | cons b l =>
      simp only [List.isPrefixOf, Bool.and_eq_true, beq_iff_eq, ih, List.cons_append,
        List.cons.injEq]
      constructor
      · rintro ⟨rfl, post, rfl⟩
        exact ⟨post, rfl, rfl⟩
      · rintro ⟨post, rfl, rfl⟩
        exact ⟨rfl, post, rfl⟩

/-- The search `containsChars` succeeds exactly when the text is some characters,
the characters searched for, and some more characters. -/
theorem containsChars_iff (s sub : List Char) :
    containsChars s sub = true ↔ ∃ pre post, s = pre ++ sub ++ post := by
  induction s with
  | nil =>
    cases sub <;> simp [containsChars]
  | cons c cs ih =>
    simp only [containsChars, Bool.or_eq_true, isPrefixOf_iff_append, ih]
    constructor
    · rintro (⟨post, h⟩ | ⟨pre, post, h⟩)
      · exact ⟨[], post, by simpa using h⟩
      · exact ⟨c :: pre, post, by simp [h]⟩
    · rintro ⟨pre, post, h⟩
      cases pre with
      | nil => exact Or.inl ⟨post, by simpa using h⟩
      | cons a pre =>
        simp only [List.cons_append, List.cons.injEq] at h
        exact Or.inr ⟨pre, post, h.2⟩

/-- C13: `shouldReportError` returns true exactly when the error is not nil and
either the command does not skip errors, or the client does not skip errors and
the error's text does not contain `already exists`; so it returns false for the
nil error, true for every error when the command does not skip errors, and, when
the command skips errors and the client does not, true exactly for the errors
whose text does not contain `already exists`. -/
theorem shouldReportError_iff (commandSkipErrors clientSkipErrors : Bool) (err : GoError) :
    ((shouldReportError commandSkipErrors clientSkipErrors err).report = true ↔
      ∃ text, err = some text ∧
        (commandSkipErrors = false ∨
          (clientSkipErrors = false ∧
            ¬ ∃ pre post, text.toList = pre ++ "already exists".toList ++ post))) ∧
    (shouldReportError commandSkipErrors clientSkipErrors none).report = false ∧
    (∀ text, (shouldReportError false clientSkipErrors (some text)).report = true) ∧
    (∀ text, (shouldReportError true false (some text)).report =
      !stringsContains text "already exists") := by
  refine ⟨?_, rfl, fun _ => rfl, fun _ => rfl⟩
  cases err with
  | none => simp [shouldReportError]
  | some text =>
    have hc := containsChars_iff text.toList "already exists".toList
    cases commandSkipErrors <;> cases clientSkipErrors
    · simp [shouldReportError]
    · simp [shouldReportError]
    · constructor
      · intro h
        refine ⟨text, rfl, Or.inr ⟨rfl, ?_⟩⟩
        rw [← hc]
        simpa [shouldReportError, stringsContains] using h
      · rintro ⟨t, ht, h⟩
        cases ht
        rcases h with h | ⟨_, h⟩
        · cases h
        · rw [← hc] at h
          simpa [shouldReportError, stringsContains] using h
    · simp [shouldReportError]

/-- A value is in the set `verifyTagExists` builds from a list exactly when it
is in the list or was in the set before. -/
theorem tagSet_isSome (l : List String) (init : String → Option Bool) (v : String) :
    ((l.foldl (fun m value => fun k => if k = value then some true else m k) init) v).isSome =
        true ↔
      v ∈ l ∨ (init v).isSome = true := by
  induction l generalizing init with
  | nil => simp
  | cons a l ih =>
    rw [List.foldl_cons, ih]
    by_cases hva : v = a
    · simp [hva]
    · simp [hva]

/-- C16: for a group, `verifyTagExists` returns true exactly when the group has
an entry for the key and every requested value is in the entry's list; with no
requested value it returns whether the group has an entry for the key; and two
calls whose entries and requested values have the same elements, in whatever
order and number, return the same. -/
theorem verifyTagExists_iff (group : Group) (tagKey : String) (tagValues : List String) :
    (∃ found, verifyTagExists (some group) tagKey tagValues = .ok found ∧
      (found = true ↔
        ∃ entry, group.tagIndex tagKey = some entry ∧ ∀ v ∈ tagValues, v ∈ entry.List)) ∧
    verifyTagExists (some group) tagKey [] = .ok (group.tagIndex tagKey).isSome ∧
    (∀ (other : Group) (otherValues : List String),
      (other.tagIndex tagKey).isSome = (group.tagIndex tagKey).isSome →
      (∀ v, v ∈ other.tagValues tagKey ↔ v ∈ group.tagValues tagKey) →
      (∀ v, v ∈ otherValues ↔ v ∈ tagValues) →
      verifyTagExists (some other) tagKey otherValues =
        verifyTagExists (some group) tagKey tagValues) := by
  have spec : ∀ (g : Group) (values : List String),
      verifyTagExists (some g) tagKey values =
        .ok ((g.tagIndex tagKey).isSome && values.all fun v => decide (v ∈ g.tagValues tagKey)) := by
    intro g values
    cases hT : g.Tags with
    | none => simp [verifyTagExists, Group.tagIndex, hT]
    | some tags =>
      cases hI : tags.index tagKey with
      | none => simp [verifyTagExists, Group.tagIndex, hT, hI]
      | some current =>
        simp only [verifyTagExists, Group.tagIndex, Group.tagValues, hT, hI,
          Option.isSome_some, Bool.true_and]
        congr 1
        rw [Bool.eq_iff_iff]
        simp only [List.all_eq_true, tagSet_isSome, decide_eq_true_eq]
        simp
  refine ⟨⟨_, spec group tagValues, ?_⟩, ?_, ?_⟩
  · unfold Group.tagValues
    cases hI : group.tagIndex tagKey <;> simp
  · rw [spec]
    simp
  · intro other otherValues hsome hentry hvalues
    rw [spec, spec, hsome]
    congr 2
    rw [Bool.eq_iff_iff]
    simp [List.all_eq_true, hentry, hvalues]

/-- Witness of C16: `readersGroup` has `prod` and `stage` under `env`, whatever
the order and number in which they are asked for. -/
theorem verifyTagExists_iff_witness :
    verifyTagExists (some readersGroup) "env" ["stage", "prod", "stage"] =
      verifyTagExists (some readersGroup) "env" ["prod", "stage"] :=
  (verifyTagExists_iff readersGroup "env" ["prod", "stage"]).2.2 readersGroup
    ["stage", "prod", "stage"] rfl (fun _ => Iff.rfl) (by simp)

/-- Appending the values of a list one at a time appends the list. -/
theorem foldl_append_each (l acc : List String) :
    l.foldl (fun arr tagValue => arr ++ [tagValue]) acc = acc ++ l := by
  induction l generalizing acc with
  | nil => simp
  | cons a l ih => simp [ih]

/-- Appending the values of a list other than a given one, one at a time,
appends the list without the occurrences of that value. -/
theorem foldl_append_other (tagValue : String) (l acc : List String) :
    l.foldl (fun arr cur => if tagValue ≠ cur then arr ++ [cur] else arr) acc =
      acc ++ l.filter fun v => v != tagValue := by
  induction l generalizing acc with
  | nil => simp
  | cons a l ih =>
    rw [List.foldl_cons, ih]
    by_cases h : tagValue = a
    · subst h
      simp
    · have h' : a ≠ tagValue := fun e => h e.symm
      simp [h, h', List.filter_cons]

/-- The entry of a key after a map assignment: the entry assigned for the key
assigned, the entry before for any other key. -/
theorem TagMap.index_set (tags : TagMap) (key : String) (entry : Option TagValueList)
    (k : String) :
    (tags.set key entry).index k = if k = key then entry else tags.index k := by
  unfold TagMap.set TagMap.index
  by_cases h : k = key <;> simp [h]

/-- No call of `showAfterPut` is a `PutGroup` request. -/
theorem showAfterPut_no_PutGroup {σ : Type} (cli : Zms σ) (s : σ) (dn gn : String)
    (retryWhen : Option Group → Except Panic Bool) :
    (showAfterPut cli s dn gn retryWhen).calls.filter ZmsCall.isPutGroup = [] := by
  have hshow : ∀ t, (ShowGroup cli t dn gn false false).calls =
      [ZmsCall.GetGroup dn gn none none] := by
    intro t
    simp only [ShowGroup, Bool.false_eq_true, if_false]
    split <;> rfl
  unfold showAfterPut
  simp only [hshow]
  split
  · rfl
  · split
    · rfl
    · rfl
    · rfl

/-- C14: when the group is fetched, `AddGroupTags` makes one `PutGroup` request,
and the group it submits has under the tag key the values the fetched group had
under it, none when it had no entry for it, followed by the new values, and has
every other tag key as the fetched group had it. -/
theorem AddGroupTags_submitted_group {σ : Type} (cli : Zms σ) (s : σ)
    (dn gn tagKey : String) (tagValues : List String) (group : Group) (state : σ)
    (hfetch : cli.GetGroup s dn gn none none = ⟨some group, none, state⟩) :
    ∃ submitted : Group,
      (AddGroupTags cli s dn gn tagKey tagValues).calls.filter ZmsCall.isPutGroup =
        [ZmsCall.PutGroup dn gn cli.AuditRef submitted] ∧
      submitted.tagIndex tagKey = some ⟨group.tagValues tagKey ++ tagValues⟩ ∧
      ∀ key, key ≠ tagKey →
        submitted.tagIndex key = group.tagIndex key ∧
        submitted.hasTagKey key = group.hasTagKey key := by
  refine ⟨{ group with Tags := some (TagMap.set
      (match group.Tags with
        | none => TagMap.empty
        | some tags => tags)
      tagKey (some ⟨group.tagValues tagKey ++ tagValues⟩)) }, ?_, ?_, ?_⟩
  · have harr : (match group.Tags with
          | none => ([] : List String)
          | some tags =>
            match tags.index tagKey with
            | some currentTagValues => [] ++ currentTagValues.List
            | none => []) = group.tagValues tagKey := by
      unfold Group.tagValues Group.tagIndex
      cases hT : group.Tags with
      | none => rfl
      | some tags => cases hI : tags.index tagKey <;> simp
    simp only [AddGroupTags, hfetch, foldl_append_each, harr]
    split
    · rfl
    · simp [List.filter_append, showAfterPut_no_PutGroup, ZmsCall.isPutGroup]
  · simp [Group.tagIndex, TagMap.index_set]
  · intro key hkey
    cases hT : group.Tags <;>
      simp [Group.tagIndex, Group.hasTagKey, TagMap.index_set, TagMap.set, TagMap.index,
        TagMap.empty, hkey, hT]

/-- Witness of C14: `dev` and `prod` are added under `env` to `readersGroup`. -/
theorem AddGroupTags_submitted_group_witness :
    ∃ submitted : Group,
      (AddGroupTags oneGroupZms (some readersGroup) "sports" "readers" "env"
          ["dev", "prod"]).calls.filter ZmsCall.isPutGroup =
        [ZmsCall.PutGroup "sports" "readers" "ticket-42" submitted] ∧
      submitted.tagIndex "env" =
        some ⟨readersGroup.tagValues "env" ++ ["dev", "prod"]⟩ ∧
      ∀ key, key ≠ "env" →
        submitted.tagIndex key = readersGroup.tagIndex key ∧
        submitted.hasTagKey key = readersGroup.hasTagKey key :=
  AddGroupTags_submitted_group oneGroupZms (some readersGroup) "sports" "readers" "env"
    ["dev", "prod"] readersGroup (some readersGroup) rfl

/-- C15: when the group is fetched, `DeleteGroupTags` makes one `PutGroup`
request, and the group it submits has under the tag key, for a tag value that
is not empty, the values the fetched group had under it without the
occurrences of the tag value, in their order, and for the empty tag value the
empty list; the tag key is in its map, and every other tag key is as the
fetched group had it. -/
theorem DeleteGroupTags_submitted_group {σ : Type} (cli : Zms σ) (s : σ)
    (dn gn tagKey tagValue : String) (group : Group) (state : σ)
    (hfetch : cli.GetGroup s dn gn none none = ⟨some group, none, state⟩) :
    ∃ submitted : Group,
      (DeleteGroupTags cli s dn gn tagKey tagValue).calls.filter ZmsCall.isPutGroup =
        [ZmsCall.PutGroup dn gn cli.AuditRef submitted] ∧
      (tagValue ≠ "" →
        submitted.tagIndex tagKey =
          some ⟨(group.tagValues tagKey).filter fun v => v != tagValue⟩) ∧
      (tagValue = "" → submitted.tagIndex tagKey = some ⟨[]⟩) ∧
      submitted.hasTagKey tagKey = true ∧
      ∀ key, key ≠ tagKey →
        submitted.tagIndex key = group.tagIndex key ∧
        submitted.hasTagKey key = group.hasTagKey key := by
  refine ⟨{ group with Tags := some (TagMap.set
      (match group.Tags with
        | none => TagMap.empty
        | some tags => tags)
      tagKey (some ⟨if tagValue ≠ "" then (group.tagValues tagKey).filter fun v => v != tagValue
        else []⟩)) }, ?_, ?_, ?_, ?_, ?_⟩
  · have harr : (if tagValue ≠ "" then
          match TagMap.index
            (match group.Tags with
              | none => TagMap.empty
              | some tags => tags) tagKey with
          | some currentTagValues =>
            currentTagValues.List.foldl
              (fun arr curTagValue => if tagValue ≠ curTagValue then arr ++ [curTagValue] else arr)
              []
          | none => []
        else []) =
        (if tagValue ≠ "" then (group.tagValues tagKey).filter fun v => v != tagValue
          else []) := by
      by_cases hv : tagValue = ""
      · simp [hv]
      · simp only [hv, ne_eq, not_false_eq_true, if_true]
        cases hT : group.Tags with
        | none => simp [Group.tagValues, Group.tagIndex, hT, TagMap.index, TagMap.empty]
        | some tags =>
          cases hI : tags.index tagKey with
          | none => simp [Group.tagValues, Group.tagIndex, hT, hI]
          | some current =>
            simp only [Group.tagValues, Group.tagIndex, hT, hI]
            have hfold := foldl_append_other tagValue current.List []
            simp only [ne_eq, List.nil_append] at hfold
            exact hfold
    simp only [DeleteGroupTags, hfetch, harr]
    split
    · rfl
    · simp [List.filter_append, showAfterPut_no_PutGroup, ZmsCall.isPutGroup]
  · intro hv
    simp [Group.tagIndex, TagMap.index_set, hv]
  · intro hv
    simp [Group.tagIndex, TagMap.index_set, hv]
  · simp [Group.hasTagKey, TagMap.set]
  · intro key hkey
    cases hT : group.Tags <;>
      simp [Group.tagIndex, Group.hasTagKey, TagMap.index_set, TagMap.set, TagMap.index,
        TagMap.empty, hkey, hT]

/-- Witness of C15: `prod` is deleted under `env` from `readersGroup`, which has
it twice. -/
theorem DeleteGroupTags_submitted_group_witness :
    ∃ submitted : Group,
      (DeleteGroupTags oneGroupZms (some readersGroup) "sports" "readers" "env"
          "prod").calls.filter ZmsCall.isPutGroup =
        [ZmsCall.PutGroup "sports" "readers" "ticket-42" submitted] ∧
      submitted.tagIndex "env" = some ⟨["stage"]⟩ ∧
      submitted.tagIndex "team" = some ⟨["media"]⟩ :=
  have ⟨submitted, hcalls, hvalue, _, _, hother⟩ :=
    DeleteGroupTags_submitted_group oneGroupZms (some readersGroup) "sports" "readers" "env"
      "prod" readersGroup (some readersGroup) rfl
  ⟨submitted, hcalls, hvalue (by decide), (hother "team" (by decide)).1⟩

/-- C17: when the group is fetched, each of `SetGroupMemberExpiryDays`,
`SetGroupServiceExpiryDays`, `SetGroupReviewEnabled`, `SetGroupSelfServe`,
`SetGroupUserAuthorityFilter`, `SetGroupUserAuthorityExpiration` and
`SetGroupNotifyRoles` makes, after `GetGroup`, one `PutGroupMeta` request whose
meta object has the new value in the field the setter is for and the fetched
group's values in the other seven fields; and when `GetGroup` returns an error,
each makes no other request and returns that error. -/
theorem group_meta_setters {σ : Type} (cli : Zms σ) (s : σ) (dn gn : String)
    (days : Int) (flag : Bool) (text : String) :
    (∀ group state, cli.GetGroup s dn gn none none = ⟨some group, none, state⟩ →
      (SetGroupMemberExpiryDays cli s dn gn days).calls =
        [ZmsCall.GetGroup dn gn none none,
         ZmsCall.PutGroupMeta dn gn cli.AuditRef
           { SelfServe := group.SelfServe
             ReviewEnabled := group.ReviewEnabled
             NotifyRoles := group.NotifyRoles
             UserAuthorityExpiration := group.UserAuthorityExpiration
             UserAuthorityFilter := group.UserAuthorityFilter
             MemberExpiryDays := some days
             ServiceExpiryDays := group.ServiceExpiryDays
             Tags := group.Tags }] ∧
      (SetGroupServiceExpiryDays cli s dn gn days).calls =
        [ZmsCall.GetGroup dn gn none none,
         ZmsCall.PutGroupMeta dn gn cli.AuditRef
           { SelfServe := group.SelfServe
             ReviewEnabled := group.ReviewEnabled
             NotifyRoles := group.NotifyRoles
             UserAuthorityExpiration := group.UserAuthorityExpiration
             UserAuthorityFilter := group.UserAuthorityFilter
             MemberExpiryDays := group.MemberExpiryDays
             ServiceExpiryDays := some days
             Tags := group.Tags }] ∧
      (SetGroupReviewEnabled cli s dn gn flag).calls =
        [ZmsCall.GetGroup dn gn none none,
         ZmsCall.PutGroupMeta dn gn cli.AuditRef
           { SelfServe := group.SelfServe
             ReviewEnabled := some flag
             NotifyRoles := group.NotifyRoles
             UserAuthorityExpiration := group.UserAuthorityExpiration
             UserAuthorityFilter := group.UserAuthorityFilter
             MemberExpiryDays := group.MemberExpiryDays
             ServiceExpiryDays := group.ServiceExpiryDays
             Tags := group.Tags }] ∧
      (SetGroupSelfServe cli s dn gn flag).calls =
        [ZmsCall.GetGroup dn gn none none,
         ZmsCall.PutGroupMeta dn gn cli.AuditRef
           { SelfServe := some flag
             ReviewEnabled := group.ReviewEnabled
             NotifyRoles := group.NotifyRoles
             UserAuthorityExpiration := group.UserAuthorityExpiration
             UserAuthorityFilter := group.UserAuthorityFilter
             MemberExpiryDays := group.MemberExpiryDays
             ServiceExpiryDays := group.ServiceExpiryDays
             Tags := group.Tags }] ∧
      (SetGroupUserAuthorityFilter cli s dn gn text).calls =
        [ZmsCall.GetGroup dn gn none none,
         ZmsCall.PutGroupMeta dn gn cli.AuditRef
           { SelfServe := group.SelfServe
             ReviewEnabled := group.ReviewEnabled
             NotifyRoles := group.NotifyRoles
             UserAuthorityExpiration := group.UserAuthorityExpiration
             UserAuthorityFilter := text
             MemberExpiryDays := group.MemberExpiryDays
             ServiceExpiryDays := group.ServiceExpiryDays
             Tags := group.Tags }] ∧
      (SetGroupUserAuthorityExpiration cli s dn gn text).calls =
        [ZmsCall.GetGroup dn gn none none,
         ZmsCall.PutGroupMeta dn gn cli.AuditRef
           { SelfServe := group.SelfServe
             ReviewEnabled := group.ReviewEnabled
             NotifyRoles := group.NotifyRoles
             UserAuthorityExpiration := text
             UserAuthorityFilter := group.UserAuthorityFilter
             MemberExpiryDays := group.MemberExpiryDays
             ServiceExpiryDays := group.ServiceExpiryDays
             Tags := group.Tags }] ∧
      (SetGroupNotifyRoles cli s dn gn text).calls =
        [ZmsCall.GetGroup dn gn none none,
         ZmsCall.PutGroupMeta dn gn cli.AuditRef
           { SelfServe := group.SelfServe
             ReviewEnabled := group.ReviewEnabled
             NotifyRoles := text
             UserAuthorityExpiration := group.UserAuthorityExpiration
             UserAuthorityFilter := group.UserAuthorityFilter
             MemberExpiryDays := group.MemberExpiryDays
             ServiceExpiryDays := group.ServiceExpiryDays
             Tags := group.Tags }]) ∧
    (∀ group err state, cli.GetGroup s dn gn none none = ⟨group, some err, state⟩ →
      ((SetGroupMemberExpiryDays cli s dn gn days).calls = [ZmsCall.GetGroup dn gn none none] ∧
        (SetGroupMemberExpiryDays cli s dn gn days).outcome = .ok (none, some err)) ∧
      ((SetGroupServiceExpiryDays cli s dn gn days).calls = [ZmsCall.GetGroup dn gn none none] ∧
        (SetGroupServiceExpiryDays cli s dn gn days).outcome = .ok (none, some err)) ∧
      ((SetGroupReviewEnabled cli s dn gn flag).calls = [ZmsCall.GetGroup dn gn none none] ∧
        (SetGroupReviewEnabled cli s dn gn flag).outcome = .ok (none, some err)) ∧
      ((SetGroupSelfServe cli s dn gn flag).calls = [ZmsCall.GetGroup dn gn none none] ∧
        (SetGroupSelfServe cli s dn gn flag).outcome = .ok (none, some err)) ∧
      ((SetGroupUserAuthorityFilter cli s dn gn text).calls = [ZmsCall.GetGroup dn gn none none] ∧
        (SetGroupUserAuthorityFilter cli s dn gn text).outcome = .ok (none, some err)) ∧
      ((SetGroupUserAuthorityExpiration cli s dn gn text).calls = [ZmsCall.GetGroup dn gn none none] ∧
        (SetGroupUserAuthorityExpiration cli s dn gn text).outcome = .ok (none, some err)) ∧
      ((SetGroupNotifyRoles cli s dn gn text).calls = [ZmsCall.GetGroup dn gn none none] ∧
        (SetGroupNotifyRoles cli s dn gn text).outcome = .ok (none, some err))) := by
  constructor
  · intro group state hfetch
    refine ⟨?_, ?_, ?_, ?_, ?_, ?_, ?_⟩ <;>
    simp only [SetGroupMemberExpiryDays, SetGroupServiceExpiryDays, SetGroupReviewEnabled, SetGroupSelfServe, SetGroupUserAuthorityFilter, SetGroupUserAuthorityExpiration, SetGroupNotifyRoles, hfetch, getGroupMetaObject] <;>
    split <;> rfl
  · intro group err state hfetch
    refine ⟨?_, ?_, ?_, ?_, ?_, ?_, ?_⟩ <;>
    simp [SetGroupMemberExpiryDays, SetGroupServiceExpiryDays, SetGroupReviewEnabled, SetGroupSelfServe, SetGroupUserAuthorityFilter, SetGroupUserAuthorityExpiration, SetGroupNotifyRoles, hfetch]

/-- Witness of C17: the member expiry of `readersGroup` is set to 90 days, and
the same is asked of a server that holds no group. -/
theorem group_meta_setters_witness :
    (SetGroupMemberExpiryDays oneGroupZms (some readersGroup) "sports" "readers" 90).calls =
        [ZmsCall.GetGroup "sports" "readers" none none,
         ZmsCall.PutGroupMeta "sports" "readers" "ticket-42"
           { SelfServe := readersGroup.SelfServe
             ReviewEnabled := readersGroup.ReviewEnabled
             NotifyRoles := readersGroup.NotifyRoles
             UserAuthorityExpiration := readersGroup.UserAuthorityExpiration
             UserAuthorityFilter := readersGroup.UserAuthorityFilter
             MemberExpiryDays := some 90
             ServiceExpiryDays := readersGroup.ServiceExpiryDays
             Tags := readersGroup.Tags }] ∧
    (SetGroupMemberExpiryDays oneGroupZms none "sports" "readers" 90).calls =
        [ZmsCall.GetGroup "sports" "readers" none none] ∧
    (SetGroupMemberExpiryDays oneGroupZms none "sports" "readers" 90).outcome =
        .ok (none, some "404 not found") :=
  ⟨((group_meta_setters oneGroupZms (some readersGroup) "sports" "readers" 90 true "").1
      readersGroup (some readersGroup) rfl).1,
    ((group_meta_setters oneGroupZms none "sports" "readers" 90 true "").2
      none "404 not found" none rfl).1⟩

end Zmscli
